import Mathlib

/-!
Verification development for the JobMatch browser-extension extraction core.

The development shallowly embeds the extraction pipeline of the repository:
the JS/TS sources are translated function by function into executable Lean
definitions.  Browser / JS platform builtins that the sources call
(String.prototype methods, the WHATWG URL parser, JSON.parse, DOMParser,
Date) are not repository code; each such builtin is modelled by an explicit
Lean definition whose doc comment states the modelling choice.  JS numbers
are modelled as rationals, JS string falsiness (undefined / empty string)
as an explicit truthiness test on Option String.
-/

/-! ## JS string primitives -/

/-- Modelled platform builtin: the character class matched by the regex
whitespace escape and by String.prototype.trim (ASCII whitespace, NBSP,
BOM, and the Unicode line/paragraph separators). -/
def jsIsSpace (c : Char) : Bool :=
  c = ' ' || c = '\t' || c = '\n' || c = '\r' || c = '\x0b' || c = '\x0c' ||
  c.toNat = 160 || c.toNat = 0x2028 || c.toNat = 0x2029 || c.toNat = 0xfeff

/-- Modelled platform builtin: String.prototype.toLowerCase restricted to the
character ranges the sources ever lower-case (ASCII letters and the Latin-1
uppercase letters used by the French keyword sets). -/
def jsToLowerChar (c : Char) : Char :=
  if 'A' ≤ c ∧ c ≤ 'Z' then Char.ofNat (c.toNat + 32)
  else if 'À' ≤ c ∧ c ≤ 'Þ' ∧ c ≠ '×' then Char.ofNat (c.toNat + 32)
  else c

def jsLower (s : String) : String := String.mk (s.data.map jsToLowerChar)

/-- listStartsWith hay pat: pat is a leading segment of hay. -/
def listStartsWith : List Char → List Char → Bool
  | _, [] => true
  | [], _ :: _ => false
  | h :: hs, p :: ps => h = p && listStartsWith hs ps

/-- Modelled platform builtin: String.prototype.includes (substring test). -/
def subContains : List Char → List Char → Bool
  | [], pat => pat.isEmpty
  | hay@(_ :: t), pat => listStartsWith hay pat || subContains t pat

def containsSub (hay pat : String) : Bool := subContains hay.data pat.data

/-- Modelled platform builtin: String.prototype.startsWith. -/
def startsWithSub (hay pat : String) : Bool := listStartsWith hay.data pat.data

def dropWs (cs : List Char) : List Char := cs.dropWhile jsIsSpace

/-- Modelled platform builtin: String.prototype.trim. -/
def jsTrimList (cs : List Char) : List Char := (dropWs ((dropWs cs.reverse)).reverse)

def jsTrim (s : String) : String := String.mk (jsTrimList s.data)

/-- Modelled platform builtin: String.prototype.trimEnd (used per line by the
markdown cleanup pass). -/
def jsTrimEndList (cs : List Char) : List Char := ((dropWs cs.reverse)).reverse

/-- Splitting a character list on a single separator character, keeping empty
pieces, exactly like String.prototype.split with a one-character separator. -/
def splitOnChar (sep : Char) : List Char → List (List Char)
  | [] => [[]]
  | c :: rest =>
    let r := splitOnChar sep rest
    if c = sep then [] :: r
    else match r with
      | [] => [[c]]
      | l :: ls => (c :: l) :: ls

/-- Joining string pieces with a separator, like Array.prototype.join. -/
def joinSep (sep : String) : List String → String
  | [] => ""
  | [x] => x
  | x :: rest => x ++ sep ++ joinSep sep rest

/-- Modelled platform builtin: parseInt on an all-digit match group. -/
def digitsToNat (cs : List Char) : Nat :=
  cs.foldl (fun acc c => acc * 10 + (c.toNat - '0'.toNat)) 0

def isDigit (c : Char) : Bool := '0' ≤ c && c ≤ '9'

/-- JS truthiness of a string-or-undefined value: defined and non-empty. -/
def otruthy (o : Option String) : Bool :=
  match o with
  | none => false
  | some s => !s.isEmpty

/-- Reading a string-or-undefined value at a point where the source has
already guarded it to be a defined string. -/
def oget (o : Option String) : String := o.getD ""

/-- Modelled platform builtin: Math.min on JS numbers (here rationals). -/
def jsMin (a b : ℚ) : ℚ := if a ≤ b then a else b

/-! ## The markup tree consumed by the renderer

A parsed HTML fragment, as the DOM / DOMParser hands it to processNode:
element nodes with tag name, attributes and children, and text leaves.
Other node kinds (comments, processing instructions) render to the empty
string in processNode and are omitted from the model.  The mutual list type
keeps every function structurally recursive. -/

mutual
inductive HNode where
  | text (s : String)
  | elem (tag : String) (attrs : List (String × String)) (children : HNodes)
deriving DecidableEq

inductive HNodes where
  | nil
  | cons (head : HNode) (tail : HNodes)
deriving DecidableEq
end

def HNodes.ofList : List HNode → HNodes
  | [] => .nil
  | h :: t => .cons h (HNodes.ofList t)

def HNodes.toList : HNodes → List HNode
  | .nil => []
  | .cons h t => h :: HNodes.toList t

/-- Direct children of an element that are elements with the given
(lower-case) tag, i.e. the querySelectorAll ':scope > li' query used by
processListItems. -/
def directChildrenWithTag (tag : String) : HNodes → List HNode
  | .nil => []
  | .cons h t =>
    match h with
    | .elem tg a c =>
      if jsLower tg = tag then HNode.elem tg a c :: directChildrenWithTag tag t
      else directChildrenWithTag tag t
    | _ => directChildrenWithTag tag t

mutual
/-- Descendant elements (document order) whose lower-cased tag satisfies the
predicate: the querySelectorAll 'tr' and 'td, th' queries of processTable. -/
def HNode.descWithTag (p : String → Bool) : HNode → List HNode
  | .text _ => []
  | .elem tg a c =>
    (if p (jsLower tg) then [HNode.elem tg a c] else []) ++ HNodes.descWithTag p c

def HNodes.descWithTag (p : String → Bool) : HNodes → List HNode
  | .nil => []
  | .cons h t => HNode.descWithTag p h ++ HNodes.descWithTag p t
end

def getAttrOf (attrs : List (String × String)) (k : String) : Option String :=
  match attrs.find? (fun kv => kv.1 = k) with
  | some kv => some kv.2
  | none => none

/-! ## The markup-to-Markdown renderer (src/lib/html-to-markdown.ts)

processNode is recursive through child lists, list items and table cells, so
the Lean translation threads an explicit fuel argument on which every
function recurses structurally; the wrapper passes the tree's node count,
which dominates the recursion, so fuel exhaustion is unreachable. -/

mutual
def HNode.fuelOf : HNode → Nat
  | .text _ => 1
  | .elem _ _ c => 1 + HNodes.fuelOf c

def HNodes.fuelOf : HNodes → Nat
  | .nil => 1
  | .cons h t => 1 + HNode.fuelOf h + HNodes.fuelOf t
end

/-- Per-character global replace of the pipe character by a backslash-escaped
pipe, as in the replace call of processTable. -/
def escapePipes (s : String) : String :=
  String.mk (s.data.flatMap (fun c => if c = '|' then ['\\', '|'] else [c]))

mutual
def processNodeF : Nat → HNode → String
  | 0, _ => ""
  | _ + 1, .text s => s
  | fu + 1, .elem tag attrs childNodes =>
    let tagName := jsLower tag
    let children := processNodesF fu childNodes
    if tagName = "h1" then "\n# " ++ jsTrim children ++ "\n\n"
    else if tagName = "h2" then "\n## " ++ jsTrim children ++ "\n\n"
    else if tagName = "h3" then "\n### " ++ jsTrim children ++ "\n\n"
    else if tagName = "h4" then "\n#### " ++ jsTrim children ++ "\n\n"
    else if tagName = "h5" then "\n##### " ++ jsTrim children ++ "\n\n"
    else if tagName = "h6" then "\n###### " ++ jsTrim children ++ "\n\n"
    else if tagName = "strong" ∨ tagName = "b" then "**" ++ jsTrim children ++ "**"
    else if tagName = "em" ∨ tagName = "i" then "*" ++ jsTrim children ++ "*"
    else if tagName = "u" then "_" ++ jsTrim children ++ "_"
    else if tagName = "s" ∨ tagName = "strike" ∨ tagName = "del" then
      "~~" ++ jsTrim children ++ "~~"
    else if tagName = "code" then "`" ++ jsTrim children ++ "`"
    else if tagName = "a" then
      let href := getAttrOf attrs "href"
      if otruthy href ∧ !startsWithSub (oget href) "javascript:" then
        "[" ++ jsTrim children ++ "](" ++ oget href ++ ")"
      else children
    else if tagName = "ul" then "\n" ++ processListItemsF fu childNodes "ul" ++ "\n"
    else if tagName = "ol" then "\n" ++ processListItemsF fu childNodes "ol" ++ "\n"
    else if tagName = "li" then children
    else if tagName = "p" then "\n" ++ jsTrim children ++ "\n\n"
    else if tagName = "br" then "\n"
    else if tagName = "hr" then "\n---\n\n"
    else if tagName = "div" ∨ tagName = "section" ∨ tagName = "article" then
      "\n" ++ children ++ "\n"
    else if tagName = "blockquote" then
      "\n> " ++
        joinSep "\n> " ((splitOnChar '\n' (jsTrim children).data).map String.mk) ++ "\n\n"
    else if tagName = "pre" then "\n```\n" ++ jsTrim children ++ "\n```\n\n"
    else if tagName = "table" then "\n" ++ processTableF fu childNodes ++ "\n"
    else if tagName = "tr" ∨ tagName = "td" ∨ tagName = "th" ∨ tagName = "thead" ∨
        tagName = "tbody" then children
    else if tagName = "script" ∨ tagName = "style" ∨ tagName = "noscript" ∨
        tagName = "iframe" ∨ tagName = "svg" ∨ tagName = "canvas" then ""
    else children

def processNodesF : Nat → HNodes → String
  | 0, _ => ""
  | _ + 1, .nil => ""
  | fu + 1, .cons h t => processNodeF fu h ++ processNodesF fu t

def processListItemsF : Nat → HNodes → String → String
  | 0, _, _ => ""
  | fu + 1, childNodes, listType =>
  let items := directChildrenWithTag "li" childNodes
  joinSep "\n" (items.enum.map (fun p =>
    let prefixStr := if listType = "ul" then "-" else toString (p.1 + 1) ++ "."
    let content := jsTrim (processNodeF fu p.2)
    let lines := (splitOnChar '\n' content.data).map String.mk
    let firstLine := lines.headD ""
    let rest := joinSep "\n" ((lines.drop 1).map (fun line => "  " ++ line))
    prefixStr ++ " " ++ firstLine ++ (if !rest.isEmpty then "\n" ++ rest else "")))

def processTableF : Nat → HNodes → String
  | 0, _ => ""
  | fu + 1, childNodes =>
  let rows := HNodes.descWithTag (fun t => t = "tr") childNodes
  if rows.isEmpty then "" else
  joinSep "\n" ((rows.enum.map (fun p =>
    let cells :=
      match p.2 with
      | .elem _ _ c => HNodes.descWithTag (fun t => t = "td" ∨ t = "th") c
      | .text _ => []
    let cellContents := cells.map (fun cell => escapePipes (jsTrim (processNodeF fu cell)))
    let line := "| " ++ joinSep " | " cellContents ++ " |"
    if p.1 = 0 then
      [line, "| " ++ joinSep " | " (cells.map (fun _ => "---")) ++ " |"]
    else [line])).flatten)
end

def processNode (n : HNode) : String := processNodeF (HNode.fuelOf n) n

/-! ### cleanMarkdown: the post-processing cleanup pass

Each global regex replace of the source is translated as a left-to-right
scan with the exact leftmost, greedy, non-overlapping replace semantics of
String.prototype.replace.  The scans carry a fuel argument equal to the
input length, which strictly dominates the characters still to process. -/

/-- Emitting a pending run of newlines: runs of three or more collapse to
exactly two (the first cleanMarkdown replace). -/
def emitNl (k : Nat) : List Char := List.replicate (if 3 ≤ k then 2 else k) '\n'

def collapseNlGo : Nat → List Char → List Char
  | k, [] => emitNl k
  | k, c :: rest =>
    if c = '\n' then collapseNlGo (k + 1) rest
    else emitNl k ++ (c :: collapseNlGo 0 rest)

/-- Scan for the replace of two asterisks followed by whitespace. -/
def fixBoldAfter : Nat → List Char → List Char
  | 0, cs => cs
  | _ + 1, [] => []
  | fu + 1, '*' :: '*' :: c :: rest =>
    if jsIsSpace c then '*' :: '*' :: fixBoldAfter fu (dropWs rest)
    else '*' :: fixBoldAfter fu ('*' :: c :: rest)
  | fu + 1, c :: rest => c :: fixBoldAfter fu rest

/-- Scan for the replace of whitespace followed by two asterisks. -/
def fixBoldBefore : Nat → List Char → List Char
  | 0, cs => cs
  | _ + 1, [] => []
  | fu + 1, c :: rest =>
    if jsIsSpace c then
      match dropWs (c :: rest) with
      | '*' :: '*' :: tail => '*' :: '*' :: fixBoldBefore fu tail
      | _ => c :: fixBoldBefore fu rest
    else c :: fixBoldBefore fu rest

/-- Scan for the replace of one asterisk followed by whitespace. -/
def fixItalAfter : Nat → List Char → List Char
  | 0, cs => cs
  | _ + 1, [] => []
  | fu + 1, '*' :: c :: rest =>
    if jsIsSpace c then '*' :: fixItalAfter fu (dropWs rest)
    else '*' :: fixItalAfter fu (c :: rest)
  | fu + 1, c :: rest => c :: fixItalAfter fu rest

/-- Scan for the replace of whitespace followed by one asterisk. -/
def fixItalBefore : Nat → List Char → List Char
  | 0, cs => cs
  | _ + 1, [] => []
  | fu + 1, c :: rest =>
    if jsIsSpace c then
      match dropWs (c :: rest) with
      | '*' :: tail => '*' :: fixItalBefore fu tail
      | _ => c :: fixItalBefore fu rest
    else c :: fixItalBefore fu rest

/-- Scan removing every occurrence of four consecutive asterisks. -/
def dropEmptyBold : Nat → List Char → List Char
  | 0, cs => cs
  | _ + 1, [] => []
  | fu + 1, '*' :: '*' :: '*' :: '*' :: rest => dropEmptyBold fu rest
  | fu + 1, c :: rest => c :: dropEmptyBold fu rest

def isBulletChar (c : Char) : Bool :=
  c.toNat = 0x2022 || c.toNat = 0x25cf || c.toNat = 0x25cb ||
  c.toNat = 0x25aa || c.toNat = 0x25b8 || c.toNat = 0x25ba

/-- Scan for the multiline bullet-normalisation replace: at a line start,
optional whitespace followed by a bullet glyph and optional whitespace is
replaced by a dash and a space.  The boolean tracks whether the current
position is a line start (string start or just after a newline). -/
def fixBullets : Nat → Bool → List Char → List Char
  | 0, _, cs => cs
  | _ + 1, _, [] => []
  | fu + 1, atStart, c :: rest =>
    if atStart then
      match dropWs (c :: rest) with
      | b :: tail =>
        if isBulletChar b then
          let consumed := tail.takeWhile jsIsSpace
          '-' :: ' ' ::
            fixBullets fu (consumed.getLast? = some '\n') (tail.drop consumed.length)
        else c :: fixBullets fu (c = '\n') rest
      | [] => c :: fixBullets fu (c = '\n') rest
    else c :: fixBullets fu (c = '\n') rest

/-- Scan for the final list-formatting replace of newline, dash, space,
newline by a single newline. -/
def fixListNl : Nat → List Char → List Char
  | 0, cs => cs
  | _ + 1, [] => []
  | fu + 1, '\n' :: '-' :: ' ' :: '\n' :: rest => '\n' :: fixListNl fu rest
  | fu + 1, c :: rest => c :: fixListNl fu rest

def cleanMarkdown (markdown : String) : String :=
  let s1 := collapseNlGo 0 markdown.data
  let s2 :=
    (joinSep "\n" ((splitOnChar '\n' s1).map (fun l => String.mk (jsTrimEndList l)))).data
  let s3 := jsTrimList s2
  let s4 := fixBoldAfter s3.length s3
  let s5 := fixBoldBefore s4.length s4
  let s6 := fixItalAfter s5.length s5
  let s7 := fixItalBefore s6.length s6
  let s8 := dropEmptyBold s7.length s7
  -- the source's next replace maps every two-asterisk match to itself
  -- (a placeholder that is a no-op), so it contributes nothing here
  let s9 := fixBullets s8.length true s8
  let s10 := fixListNl s9.length s9
  String.mk s10

/-! ## DOMParser model

htmlToMarkdown receives an HTML string and parses it through the browser's
DOMParser, which is a platform builtin, not repository code.  It is modelled
here as a plain well-formed-fragment HTML parser: angle-bracket tags with
optionally quoted attributes, text in between with the common character
entities decoded, a stack-based tree builder that ignores unmatched closing
tags and closes still-open elements at the end of input.  This covers the
simple description fragments that the specification's reference equations
exercise; the source never depends on recovery from malformed markup. -/

inductive HTok where
  | text (s : String)
  | tagOpen (name : String) (attrs : List (String × String)) (selfClose : Bool)
  | tagClose (name : String)

def isTagNameChar (c : Char) : Bool := c.isAlpha || isDigit c

def isAttrNameChar (c : Char) : Bool :=
  !jsIsSpace c && c ≠ '=' && c ≠ '>' && c ≠ '/' && c ≠ '<'

/-- Decoding of the common named character entities in text content. -/
def decodeEntities : Nat → List Char → List Char
  | 0, cs => cs
  | _ + 1, [] => []
  | fu + 1, '&' :: rest =>
    if listStartsWith rest "amp;".data then '&' :: decodeEntities fu (rest.drop 4)
    else if listStartsWith rest "lt;".data then '<' :: decodeEntities fu (rest.drop 3)
    else if listStartsWith rest "gt;".data then '>' :: decodeEntities fu (rest.drop 3)
    else if listStartsWith rest "quot;".data then '"' :: decodeEntities fu (rest.drop 5)
    else if listStartsWith rest "#39;".data then
      Char.ofNat 39 :: decodeEntities fu (rest.drop 4)
    else if listStartsWith rest "nbsp;".data then
      Char.ofNat 160 :: decodeEntities fu (rest.drop 5)
    else '&' :: decodeEntities fu rest
  | fu + 1, c :: rest => c :: decodeEntities fu rest

mutual
def lexHtml : Nat → List Char → List HTok
  | 0, _ => []
  | _ + 1, [] => []
  | fu + 1, '<' :: rest =>
    match rest with
    | '/' :: r2 =>
      let name := r2.takeWhile (fun c => c ≠ '>')
      let r3 := (r2.dropWhile (fun c => c ≠ '>')).drop 1
      HTok.tagClose (jsLower (String.mk (jsTrimList name))) :: lexHtml fu r3
    | _ =>
      let name := rest.takeWhile isTagNameChar
      if name.isEmpty then HTok.text "<" :: lexHtml fu rest
      else lexAttrs fu (jsLower (String.mk name)) [] (rest.drop name.length)
  | fu + 1, c :: rest =>
    let txt := (c :: rest).takeWhile (fun ch => ch ≠ '<')
    HTok.text (String.mk (decodeEntities txt.length txt)) ::
      lexHtml fu ((c :: rest).drop txt.length)

def lexAttrs : Nat → String → List (String × String) → List Char → List HTok
  | 0, name, acc, _ => [HTok.tagOpen name acc.reverse false]
  | fu + 1, name, acc, cs =>
    match dropWs cs with
    | [] => [HTok.tagOpen name acc.reverse false]
    | '>' :: rest => HTok.tagOpen name acc.reverse false :: lexHtml fu rest
    | '/' :: '>' :: rest => HTok.tagOpen name acc.reverse true :: lexHtml fu rest
    | c :: rest =>
      let an := (c :: rest).takeWhile isAttrNameChar
      if an.isEmpty then lexAttrs fu name acc rest
      else
        let r2 := dropWs ((c :: rest).drop an.length)
        let anm := jsLower (String.mk an)
        match r2 with
        | '=' :: r3 =>
          match dropWs r3 with
          | '"' :: r4 =>
            let v := r4.takeWhile (fun ch => ch ≠ '"')
            lexAttrs fu name
              ((anm, String.mk (decodeEntities v.length v)) :: acc)
              ((r4.drop v.length).drop 1)
          | q :: r4 =>
            if q = Char.ofNat 39 then
              let v := r4.takeWhile (fun ch => ch ≠ Char.ofNat 39)
              lexAttrs fu name
                ((anm, String.mk (decodeEntities v.length v)) :: acc)
                ((r4.drop v.length).drop 1)
            else
              let v := (q :: r4).takeWhile (fun ch => !jsIsSpace ch && ch ≠ '>')
              lexAttrs fu name ((anm, String.mk v) :: acc) ((q :: r4).drop v.length)
          | [] => [HTok.tagOpen name ((anm, "") :: acc).reverse false]
        | _ => lexAttrs fu name ((anm, "") :: acc) ((c :: rest).drop an.length)
end

/-- Tags the HTML standard treats as void elements (no children, no closing
tag). -/
def voidTag (t : String) : Bool :=
  t = "br" || t = "hr" || t = "img" || t = "meta" || t = "input" || t = "link" ||
  t = "area" || t = "base" || t = "col" || t = "embed" || t = "source" ||
  t = "track" || t = "wbr"

/-- One open-element stack frame: tag, attributes, children so far
(reversed). -/
abbrev BFrame := String × List (String × String) × List HNode

def frameToNode (f : BFrame) : HNode :=
  HNode.elem f.1 f.2.1 (HNodes.ofList f.2.2.reverse)

/-- Attaching a finished node to the innermost open frame, or to the
top-level accumulator when no element is open. -/
def buildAdd (n : HNode) : List BFrame → List HNode → List BFrame × List HNode
  | [], top => ([], n :: top)
  | (tg, at_, ch) :: fs, top => ((tg, at_, n :: ch) :: fs, top)

def stackHasTag (t : String) : List BFrame → Bool
  | [] => false
  | (tg, _, _) :: fs => tg = t || stackHasTag t fs

/-- Closing frames while carrying the just-closed child downwards, stopping
after the frame with the given tag has been closed. -/
def closeCarry (t : String) (child : HNode) : List BFrame → List HNode → List BFrame × List HNode
  | [], top => ([], child :: top)
  | (tg, at_, ch) :: fs, top =>
    let node := HNode.elem tg at_ (HNodes.ofList (child :: ch).reverse)
    if tg = t then buildAdd node fs top
    else closeCarry t node fs top

/-- Closing open frames up to and including the first with the given tag. -/
def closeUntil (t : String) : List BFrame → List HNode → List BFrame × List HNode
  | [], top => ([], top)
  | f :: fs, top =>
    if f.1 = t then buildAdd (frameToNode f) fs top
    else closeCarry t (frameToNode f) fs top

def closeAllCarry (child : HNode) : List BFrame → List HNode → List HNode
  | [], top => child :: top
  | (tg, at_, ch) :: fs, top =>
    closeAllCarry (HNode.elem tg at_ (HNodes.ofList (child :: ch).reverse)) fs top

def closeAll : List BFrame → List HNode → List HNode
  | [], top => top
  | f :: fs, top => closeAllCarry (frameToNode f) fs top

def buildGo : List HTok → List BFrame → List HNode → List HNode
  | [], stack, top => (closeAll stack top).reverse
  | HTok.text s :: toks, stack, top =>
    let step := buildAdd (HNode.text s) stack top
    buildGo toks step.1 step.2
  | HTok.tagOpen name attrs selfC :: toks, stack, top =>
    if voidTag name || selfC then
      let step := buildAdd (HNode.elem name attrs .nil) stack top
      buildGo toks step.1 step.2
    else buildGo toks ((name, attrs, []) :: stack) top
  | HTok.tagClose name :: toks, stack, top =>
    if stackHasTag name stack then
      let step := closeUntil name stack top
      buildGo toks step.1 step.2
    else buildGo toks stack top

def domParse (html : String) : List HNode :=
  buildGo (lexHtml html.data.length html.data) [] []

/-- htmlToMarkdown of src/lib/html-to-markdown.ts: parse the HTML string,
render the body through processNode, clean the result. -/
def htmlToMarkdown (html : String) : String :=
  if html.isEmpty then "" else
  cleanMarkdown (processNode (HNode.elem "body" [] (HNodes.ofList (domParse html))))

/-! ## JSON values and the markup-document oracle

The extraction strategies consume the page only through the DOM query API
(querySelector / querySelectorAll / document.title) and read embedded
JSON-LD through JSON.parse.  Both are platform builtins, so the document is
modelled as an oracle: a record of the observations the source can make.
An Element carries the observations the source reads from a query result;
its jsonData field is the outcome of JSON.parse on its text content (none
models a parse failure, which the source catches), since JSON.parse is a JS
builtin and only its result flows into repository code. -/

inductive Json where
  | null
  | bool (b : Bool)
  | num (n : Int)
  | str (s : String)
  | arr (elems : List Json)
  | obj (fields : List (String × Json))

/-- Property read on a parsed JSON value; on non-objects it yields none,
like a property read on a JS primitive yields undefined. -/
def jlookup : Json → String → Option Json
  | .obj fields, k =>
    match fields.find? (fun kv => kv.1 = k) with
    | some kv => some kv.2
    | none => none
  | _, _ => none

/-- JS truthiness of a JSON value. -/
def Json.truthy : Json → Bool
  | .null => false
  | .bool b => b
  | .num n => n ≠ 0
  | .str s => !s.isEmpty
  | .arr _ => true
  | .obj _ => true

/-- Truthy string field of a JSON-LD object, as consumed through the
string-typed JobPostingLD interface.  A truthy non-string value would make
the source throw a TypeError inside the string methods applied to it (an
error the registry catches); such degenerate values are modelled as an
absent field. -/
def jsonStrProp (j : Json) (k : String) : Option String :=
  match jlookup j k with
  | some (.str s) => if s.isEmpty then none else some s
  | _ => none

/-- Numeric field of a JSON-LD object (absent when missing or non-numeric). -/
def jsonNumProp (j : Json) (k : String) : Option Int :=
  match jlookup j k with
  | some (.num n) => some n
  | _ => none

structure Element where
  tagName : String := ""
  attrs : List (String × String) := []
  textContent : String := ""
  innerHTML : String := ""
  jsonData : Option Json := none

def Element.getAttribute (e : Element) (k : String) : Option String :=
  getAttrOf e.attrs k

/-- The document oracle: title plus the two structural query methods. -/
structure Doc where
  title : String := ""
  queryOne : String → Option Element := fun _ => none
  queryAll : String → List Element := fun _ => []

/-! ## Base extractor utilities (src/extractors/base.ts) -/

def collapseWsGo : Bool → List Char → List Char
  | _, [] => []
  | prevWs, c :: rest =>
    if jsIsSpace c then
      (if prevWs then collapseWsGo true rest else ' ' :: collapseWsGo true rest)
    else c :: collapseWsGo false rest

def isNrt (c : Char) : Bool := c = '\n' || c = '\r' || c = '\t'

def collapseNrtGo : Bool → List Char → List Char
  | _, [] => []
  | prevNrt, c :: rest =>
    if isNrt c then
      (if prevNrt then collapseNrtGo true rest else ' ' :: collapseNrtGo true rest)
    else c :: collapseNrtGo false rest

/-- cleanText of base.ts: falsy input to the empty string, whitespace runs
collapsed to a single space, newline/tab runs collapsed (already subsumed by
the first replace), then trimmed. -/
def cleanText (text : Option String) : String :=
  match text with
  | none => ""
  | some s =>
    if s.isEmpty then ""
    else jsTrim (String.mk (collapseNrtGo false (collapseWsGo false s.data)))

def cleanTextS (s : String) : String := cleanText (some s)

/-- Finding the first occurrence of a pattern in a character list. -/
def findSubIdx : List Char → List Char → Option Nat
  | [], pat => if pat.isEmpty then some 0 else none
  | hay@(_ :: t), pat =>
    if listStartsWith hay pat then some 0
    else (findSubIdx t pat).map (fun i => i + 1)

def afterLastSep (c : Char) (cs : List Char) : List Char :=
  match findSubIdx cs [c] with
  | none => cs
  | some _ =>
    match (splitOnChar c cs).getLast? with
    | some l => l
    | none => cs

/-- Modelled platform builtin: the WHATWG URL parser behind
new URL(url).hostname.  A URL with a scheme separator parses; the hostname
is the authority up to the first path, query or fragment delimiter, with
userinfo and port removed and lower-cased; anything without a scheme
separator or with an empty host fails to parse (getDomain catches the
failure and returns the empty string). -/
def urlHostname (url : String) : Option String :=
  let cs := url.data
  match findSubIdx cs "://".data with
  | none => none
  | some i =>
    if i = 0 then none else
    let rest := cs.drop (i + 3)
    let auth := rest.takeWhile (fun c => c ≠ '/' && c ≠ '?' && c ≠ '#')
    let host0 := afterLastSep '@' auth
    let host1 := host0.takeWhile (fun c => c ≠ ':')
    if host1.isEmpty then none else some (String.mk (host1.map jsToLowerChar))

/-- getDomain of base.ts: hostname with one leading www. stripped, the empty
string when URL construction throws. -/
def getDomain (url : String) : String :=
  match urlHostname url with
  | none => ""
  | some h => if startsWithSub h "www." then String.mk (h.data.drop 4) else h

structure Salary where
  min : Option Int := none
  max : Option Int := none
  currency : String := ""
  period : String := ""
deriving DecidableEq

structure JobOffer where
  sourceUrl : String := ""
  sourceDomain : String := ""
  title : Option String := none
  company : Option String := none
  location : Option String := none
  description : Option String := none
  remoteType : Option String := none
  contractType : Option String := none
  experience : Option String := none
  salary : Option Salary := none
  skills : Option (List String) := none
  publishedAt : Option String := none
  capturedAt : String := ""
deriving DecidableEq

structure ExtractionResult where
  success : Bool
  offer : Option JobOffer
  confidence : ℚ
  extractorUsed : String
  errors : List String := []
deriving DecidableEq

def createEmptyResult (extractorName : String) : ExtractionResult :=
  { success := false
    offer := none
    confidence := 0
    extractorUsed := extractorName
    errors := ["Aucune donnée extraite"] }

def createSuccessResult (extractorName : String) (offer : JobOffer) (confidence : ℚ) :
    ExtractionResult :=
  { success := true
    offer := some offer
    confidence := confidence
    extractorUsed := extractorName
    errors := [] }

/-! ### parseSalary and its two regex patterns -/

def isRangeSep (c : Char) : Bool := c = '-' || c = '–' || c = 'à'

/-- Match of the range pattern (digits, optional k, a range separator,
digits, optional k) anchored at the start of the list: the two digit
groups. -/
def rangeMatchAt (cs : List Char) : Option (Nat × Nat) :=
  let d1 := cs.takeWhile isDigit
  if d1.isEmpty then none else
  let r1 := cs.drop d1.length
  let r2 := if r1.headD ' ' = 'k' then r1.drop 1 else r1
  match r2 with
  | c :: rest =>
    if isRangeSep c then
      let d2 := rest.takeWhile isDigit
      if d2.isEmpty then none else some (digitsToNat d1, digitsToNat d2)
    else none
  | [] => none

/-- Leftmost match of the range pattern anywhere in the list. -/
def findRange : List Char → Option (Nat × Nat)
  | [] => none
  | cs@(_ :: t) =>
    match rangeMatchAt cs with
    | some g => some g
    | none => findRange t

def isCurrencyChar (c : Char) : Bool := c = '€' || c = '$' || c = '£'

/-- Match of the single-value pattern (digits, optional k, a currency
symbol) anchored at the start of the list: the digit group. -/
def singleMatchAt (cs : List Char) : Option Nat :=
  let d1 := cs.takeWhile isDigit
  if d1.isEmpty then none else
  let r1 := cs.drop d1.length
  let r2 := if r1.headD ' ' = 'k' then r1.drop 1 else r1
  match r2 with
  | c :: _ => if isCurrencyChar c then some (digitsToNat d1) else none
  | [] => none

def findSingle : List Char → Option Nat
  | [] => none
  | cs@(_ :: t) =>
    match singleMatchAt cs with
    | some g => some g
    | none => findSingle t

/-- The normalisation step of parseSalary: lower-case and strip
whitespace. -/
def normalizeSalaryText (text : String) : List Char :=
  (jsLower text).data.filter (fun c => !jsIsSpace c)

/-- parseSalary of base.ts. -/
def parseSalary (text : String) : Option Salary :=
  if text.isEmpty then none else
  let normalized := normalizeSalaryText text
  let hasK := normalized.contains 'k'
  match findRange normalized with
  | some g =>
    let min0 : Nat := g.1
    let max0 : Nat := g.2
    let min1 := if min0 < 1000 ∧ hasK then min0 * 1000 else min0
    let max1 := if max0 < 1000 ∧ hasK then max0 * 1000 else max0
    let cur0 := "EUR"
    let cur1 := if normalized.contains '$' then "USD" else cur0
    let cur2 := if normalized.contains '£' then "GBP" else cur1
    let cur3 := if subContains normalized "chf".data then "CHF" else cur2
    let per0 := "year"
    let per1 :=
      if subContains normalized "/h".data ∨ subContains normalized "heure".data
      then "hour" else per0
    let per2 :=
      if subContains normalized "/j".data ∨ subContains normalized "jour".data
      then "day" else per1
    let per3 :=
      if subContains normalized "/m".data ∨ subContains normalized "mois".data
      then "month" else per2
    some { min := some (Int.ofNat min1), max := some (Int.ofNat max1),
           currency := cur3, period := per3 }
  | none =>
    match findSingle normalized with
    | some v0 =>
      let v := if v0 < 1000 ∧ hasK then v0 * 1000 else v0
      let cur0 := "EUR"
      let cur1 := if normalized.contains '$' then "USD" else cur0
      let cur2 := if normalized.contains '£' then "GBP" else cur1
      some { min := some (Int.ofNat v), max := some (Int.ofNat v),
             currency := cur2, period := "year" }
    | none => none

/-- detectRemoteType of base.ts. -/
def detectRemoteType (text : String) : String :=
  let lower := jsLower text
  if containsSub lower "full remote" ∨ containsSub lower "100% remote" ∨
      containsSub lower "télétravail complet" then "remote"
  else if containsSub lower "hybrid" ∨ containsSub lower "hybride" ∨
      containsSub lower "télétravail partiel" then "hybrid"
  else if containsSub lower "on-site" ∨ containsSub lower "sur site" ∨
      containsSub lower "présentiel" then "onsite"
  else "unknown"

/-- The curated skill vocabulary of extractSkillsFromText. -/
def knownSkills : List String :=
  ["JavaScript", "TypeScript", "Python", "Java", "C#", "C++", "Go", "Rust",
   "Ruby", "PHP",
   "React", "Vue", "Angular", "Svelte", "Node.js", "Express", "NestJS",
   "Django", "FastAPI", "Flask",
   "PostgreSQL", "MySQL", "MongoDB", "Redis", "Elasticsearch",
   "AWS", "GCP", "Azure", "Docker", "Kubernetes", "Terraform",
   "Git", "CI/CD", "Agile", "Scrum",
   "Machine Learning", "Deep Learning", "TensorFlow", "PyTorch",
   "REST", "GraphQL", "gRPC"]

/-- De-duplication keeping first occurrences, the effect of spreading a Set
built from an array. -/
def dedupGo (seen : List String) : List String → List String
  | [] => []
  | x :: rest =>
    if seen.contains x then dedupGo seen rest
    else x :: dedupGo (x :: seen) rest

def dedupKeepFirst (l : List String) : List String := dedupGo [] l

/-- extractSkillsFromText of base.ts. -/
def extractSkillsFromText (text : String) : List String :=
  let lowerText := jsLower text
  dedupKeepFirst (knownSkills.filter (fun sk => containsSub lowerText (jsLower sk)))

/-! ## Shared cascade helpers -/

/-- First selector whose query result is accepted, the common cascade loop
shape of the extractors. -/
def queryCascade (doc : Doc) (accept : Element → Option String)
    (selectors : List String) : Option String :=
  selectors.findSome? (fun sel => (doc.queryOne sel).bind accept)

/-- Cascade over querySelectorAll results: first element of the first
selector whose text is accepted. -/
def queryAllCascade (doc : Doc) (accept : Element → Option String)
    (selectors : List String) : Option String :=
  selectors.findSome? (fun sel => (doc.queryAll sel).findSome? accept)

/-- The elements of all selectors' querySelectorAll results, in the order
the nested forEach loops of the sources visit them. -/
def queryAllConcat (doc : Doc) (selectors : List String) : List Element :=
  selectors.flatMap doc.queryAll

/-- Truthiness-guarded text of a query result followed by cleanText, the
recurring element?.textContent pattern. -/
def acceptText (cond : String → Bool) (e : Element) : Option String :=
  if e.textContent.isEmpty then none
  else
    let text := cleanTextS e.textContent
    if !text.isEmpty && cond text then some text else none

def descLongerThan (o : Option String) (n : Nat) : Bool :=
  match o with
  | some d => !d.isEmpty && decide (d.length > n)
  | none => false

def skillsNonempty (o : Option (List String)) : Bool :=
  match o with
  | some l => decide (l.length > 0)
  | none => false

/-! ## Clock model

capturedAt is assigned from the clock at extraction time.  Date and its
toISOString rendering are platform builtins; the clock instant is modelled
as an epoch-millisecond number passed to extract, and the two renderings
(full timestamp, and the date part that parseRelativeDate keeps after
splitting on the letter T) as injective strings of the instant. -/

def isoDateTime (ms : Int) : String := "ts:" ++ toString ms

def isoDateOnly (ms : Int) : String := "date:" ++ toString ms

/-! ## LinkedIn extractor (src/extractors/linkedin.ts) -/

def linkedInDomains : List String := ["linkedin.com", "www.linkedin.com"]

def linkedInCanHandle (url : String) : Bool :=
  let domain := getDomain url
  linkedInDomains.contains domain && containsSub url "/jobs/"

def liTitleSelectors : List String :=
  ["h1.t-24.t-bold.inline", "h1.topcard__title",
   "h1.job-details-jobs-unified-top-card__job-title",
   ".jobs-unified-top-card__job-title", "h1[class*=\"job-title\"]",
   ".top-card-layout__title", "h1"]

def liTitle (doc : Doc) : Option String :=
  queryCascade doc (acceptText (fun t => decide (t.length > 2))) liTitleSelectors

def liCompanySelectors : List String :=
  [".topcard__org-name-link", ".job-details-jobs-unified-top-card__company-name",
   ".jobs-unified-top-card__company-name", "a[class*=\"company-name\"]",
   ".top-card-layout__card a[data-tracking-control-name=\"public_jobs_topcard-org-name\"]",
   "a[data-tracking-control-name*=\"company\"]"]

def liCompany (doc : Doc) : Option String :=
  queryCascade doc (acceptText (fun t => decide (t.length > 1))) liCompanySelectors

def liLocationSelectors : List String :=
  [".topcard__flavor--bullet", ".job-details-jobs-unified-top-card__bullet",
   ".jobs-unified-top-card__bullet",
   ".top-card-layout__entity-info-container .topcard__flavor:not(.topcard__flavor--bullet)",
   "span[class*=\"location\"]"]

/-- The relative-time regex of extractLocation: digits, optional whitespace,
then one of the unit words, case-insensitively, anywhere in the text. -/
def relUnitWords : List String := ["week", "day", "hour", "jour", "semaine"]

def relTimeAt (cs : List Char) : Bool :=
  let d := cs.takeWhile isDigit
  if d.isEmpty then false
  else relUnitWords.any (fun w => listStartsWith (dropWs (cs.drop d.length)) w.data)

def hasRelTime : List Char → Bool
  | [] => false
  | cs@(_ :: t) => relTimeAt cs || hasRelTime t

def liLocation (doc : Doc) : Option String :=
  queryAllCascade doc (fun e =>
    let text := cleanTextS e.textContent
    if !text.isEmpty &&
        (containsSub text "," || containsSub text "France" || decide (text.length > 3)) then
      if !hasRelTime (jsLower text).data then some text else none
    else none) liLocationSelectors

def liDescriptionSelectors : List String :=
  [".show-more-less-html__markup", ".jobs-description__content",
   ".jobs-description-content__text", ".description__text",
   "[class*=\"job-description\"]", ".jobs-box__html-content"]

/-- The description cascade: the matched element's inner markup rendered to
Markdown, accepted only above 100 characters. -/
def descCascade (doc : Doc) (selectors : List String) : Option String :=
  selectors.findSome? (fun sel =>
    match doc.queryOne sel with
    | some e =>
      let markdown := htmlToMarkdown e.innerHTML
      if !markdown.isEmpty && decide (markdown.length > 100) then some markdown else none
    | none => none)

def liDescription (doc : Doc) : Option String := descCascade doc liDescriptionSelectors

structure LIDetails where
  contractType : Option String := none
  experience : Option String := none
  remoteType : Option String := none

def liInsightSelectors : List String :=
  [".job-details-jobs-unified-top-card__job-insight",
   ".jobs-unified-top-card__job-insight", ".description__job-criteria-item",
   ".job-criteria__item"]

def liDetailsStep (acc : LIDetails) (item : Element) : LIDetails :=
  let text := cleanTextS item.textContent
  if text.isEmpty then acc else
  let lower := jsLower text
  let acc1 :=
    if containsSub lower "cdi" || containsSub lower "full-time" ||
        containsSub lower "temps plein" then { acc with contractType := some "CDI" }
    else if containsSub lower "cdd" || containsSub lower "contract" ||
        containsSub lower "temporary" then { acc with contractType := some "CDD" }
    else if containsSub lower "intern" || containsSub lower "stage" then
      { acc with contractType := some "Stage" }
    else if containsSub lower "freelance" then { acc with contractType := some "Freelance" }
    else acc
  let acc2 :=
    if containsSub lower "remote" || containsSub lower "télétravail" then
      (if containsSub lower "hybrid" || containsSub lower "hybride" then
        { acc1 with remoteType := some "hybrid" }
      else { acc1 with remoteType := some "remote" })
    else if containsSub lower "on-site" || containsSub lower "sur site" then
      { acc1 with remoteType := some "onsite" }
    else acc1
  if containsSub lower "entry" || containsSub lower "junior" ||
      containsSub lower "débutant" then { acc2 with experience := some "Junior (0-2 ans)" }
  else if containsSub lower "mid-senior" || containsSub lower "confirmé" then
    { acc2 with experience := some "Confirmé (3-5 ans)" }
  else if containsSub lower "senior" || containsSub lower "expert" then
    { acc2 with experience := some "Senior (5+ ans)" }
  else acc2

def liJobDetails (doc : Doc) : LIDetails :=
  (queryAllConcat doc liInsightSelectors).foldl liDetailsStep {}

def liSkillSelectors : List String :=
  [".job-details-skill-match-modal__skill-name",
   ".job-details-how-you-match__skills-item", "[class*=\"skill-match\"] span"]

/-- The push-if-plausible skill collection loop shared by the LinkedIn and
WTTJ extractors. -/
def collectSkills (doc : Doc) (selectors : List String) : Option (List String) :=
  let skills := (queryAllConcat doc selectors).foldl (fun acc el =>
    let text := cleanTextS el.textContent
    if !text.isEmpty && decide (text.length > 1) && decide (text.length < 50) then
      acc ++ [text]
    else acc) []
  if skills.length > 0 then some (dedupKeepFirst skills) else none

def liSkills (doc : Doc) : Option (List String) := collectSkills doc liSkillSelectors

def liPostedSelectors : List String :=
  [".posted-time-ago__text", ".jobs-unified-top-card__posted-date",
   "[class*=\"posted-date\"]"]

def relDateUnits : List String :=
  ["hour", "day", "week", "month", "jour", "semaine", "mois", "heure"]

def relDateMatchAt (cs : List Char) : Option (Nat × String) :=
  let d := cs.takeWhile isDigit
  if d.isEmpty then none else
  match relDateUnits.find? (fun w => listStartsWith (dropWs (cs.drop d.length)) w.data) with
  | some w => some (digitsToNat d, w)
  | none => none

def relDateFind : List Char → Option (Nat × String)
  | [] => none
  | cs@(_ :: t) =>
    match relDateMatchAt cs with
    | some g => some g
    | none => relDateFind t

/-- parseRelativeDate of the LinkedIn extractor.  The Date arithmetic is a
platform builtin; hour, day and week offsets are exact in milliseconds, and
the calendar-month subtraction of setMonth is modelled as thirty days. -/
def parseRelativeDate (text : String) (now : Nat) : String :=
  let lower := jsLower text
  let t : Int :=
    match relDateFind lower.data with
    | some g =>
      let num : Int := Int.ofNat g.1
      let unit := g.2
      if containsSub unit "hour" || containsSub unit "heure" then
        (now : Int) - num * 3600000
      else if containsSub unit "day" || containsSub unit "jour" then
        (now : Int) - num * 86400000
      else if containsSub unit "week" || containsSub unit "semaine" then
        (now : Int) - num * 7 * 86400000
      else if containsSub unit "month" || containsSub unit "mois" then
        (now : Int) - num * 2592000000
      else (now : Int)
    | none => (now : Int)
  isoDateOnly t

def liPostedDate (doc : Doc) (now : Nat) : Option String :=
  (queryCascade doc (acceptText (fun _ => true)) liPostedSelectors).map
    (fun t => parseRelativeDate t now)

/-- calculateConfidence of the LinkedIn extractor: the source accumulates
the score by conditional increments over a mutable variable, rendered here
as the base plus the sum of conditional bonuses in the same order. -/
def liConfidence (offer : JobOffer) : ℚ :=
  jsMin (0.5
    + (if otruthy offer.title then 0.15 else 0)
    + (if otruthy offer.company then 0.1 else 0)
    + (if descLongerThan offer.description 200 then 0.15 else 0)
    + (if otruthy offer.location then 0.05 else 0)
    + (if skillsNonempty offer.skills then 0.05 else 0)) 1

def liExtract (url : String) (doc : Doc) (now : Nat) : ExtractionResult :=
  let title := liTitle doc
  if !otruthy title then createEmptyResult "linkedin" else
  let company := liCompany doc
  let location := liLocation doc
  let description := liDescription doc
  if !otruthy description then createEmptyResult "linkedin" else
  let details := liJobDetails doc
  let offer : JobOffer :=
    { sourceUrl := url
      sourceDomain := "linkedin.com"
      capturedAt := isoDateTime (Int.ofNat now)
      title := title
      company := company
      location := location
      description := description
      contractType := details.contractType
      experience := details.experience
      remoteType := some (match details.remoteType with
        | some r => r
        | none => detectRemoteType (oget description))
      skills := some (match liSkills doc with
        | some l => l
        | none => extractSkillsFromText (oget description))
      publishedAt := liPostedDate doc now }
  createSuccessResult "linkedin" offer (liConfidence offer)

/-! ## Indeed extractor (src/extractors/indeed.ts) -/

def indeedDomains : List String :=
  ["indeed.com", "indeed.fr", "www.indeed.com", "www.indeed.fr"]

/-- canHandle of the Indeed extractor: the source's some-loop tests a
constant predicate on the shared domain, so it holds exactly when the
domain contains the substring indeed (and the domain list is non-empty). -/
def indeedCanHandle (url : String) : Bool :=
  let domain := getDomain url
  indeedDomains.any (fun _ => containsSub domain "indeed")

def indTitleSelectors : List String :=
  ["h1.jobsearch-JobInfoHeader-title", "[data-testid=\"jobsearch-JobInfoHeader-title\"]",
   "h1[class*=\"JobTitle\"]", ".jobsearch-JobInfoHeader-title-container h1", "h1"]

/-- The leading new/nouveau badge strip of the Indeed title: one
case-insensitive anchored match followed by trim. -/
def stripNewBadge (text : String) : String :=
  let cs := text.data
  let lower := (jsLower text).data
  let stripped :=
    if listStartsWith lower "new".data then dropWs (cs.drop 3)
    else if listStartsWith lower "nouveau".data then dropWs (cs.drop 7)
    else cs
  jsTrim (String.mk stripped)

def indTitle (doc : Doc) : Option String :=
  queryCascade doc (fun e =>
    if e.textContent.isEmpty then none
    else
      let text := cleanTextS e.textContent
      if !text.isEmpty && decide (text.length > 2) then some (stripNewBadge text)
      else none) indTitleSelectors

def indCompanySelectors : List String :=
  ["[data-testid=\"inlineHeader-companyName\"]",
   "[data-testid=\"jobsearch-CompanyInfoHeader-companyName\"]",
   ".jobsearch-InlineCompanyRating-companyHeader a",
   ".jobsearch-CompanyInfoWithoutHeaderImage a", "[class*=\"companyName\"]",
   ".icl-u-lg-mr--sm a"]

def indCompany (doc : Doc) : Option String :=
  queryCascade doc (acceptText (fun t => decide (t.length > 1))) indCompanySelectors

def indLocationSelectors : List String :=
  ["[data-testid=\"inlineHeader-companyLocation\"]",
   "[data-testid=\"jobsearch-CompanyInfoHeader-location\"]",
   ".jobsearch-InlineCompanyRating-companyHeader + div",
   ".jobsearch-JobInfoHeader-subtitle > div:last-child",
   "[class*=\"companyLocation\"]"]

def indLocation (doc : Doc) : Option String :=
  queryCascade doc (acceptText (fun t => decide (t.length > 2))) indLocationSelectors

def indDescriptionSelectors : List String :=
  ["#jobDescriptionText", "[data-testid=\"jobDescriptionText\"]",
   ".jobsearch-jobDescriptionText", ".jobsearch-JobComponent-description",
   "[class*=\"jobDescription\"]"]

def indDescription (doc : Doc) : Option String := descCascade doc indDescriptionSelectors

def indSalarySelectors : List String :=
  ["[data-testid=\"jobsearch-JobMetadataHeader-salarySnippet\"]",
   ".jobsearch-JobMetadataHeader-item .attribute_snippet", "#salaryInfoAndJobType",
   "[class*=\"salary\"]", "[class*=\"salaire\"]"]

def indSalary (doc : Doc) : Option Salary :=
  indSalarySelectors.findSome? (fun sel =>
    match doc.queryOne sel with
    | some e => if e.textContent.isEmpty then none else parseSalary e.textContent
    | none => none)

structure INDetails where
  contractType : Option String := none
  remoteType : Option String := none

def indMetadataSelectors : List String :=
  [".jobsearch-JobMetadataHeader-item", "[data-testid=\"jobsearch-JobMetadataHeader-item\"]",
   "#salaryInfoAndJobType span", ".jobMetaDataGroup span"]

def indDetailsStep (acc : INDetails) (item : Element) : INDetails :=
  let text := cleanTextS item.textContent
  if text.isEmpty then acc else
  let lower := jsLower text
  let acc1 :=
    if containsSub lower "cdi" || containsSub lower "permanent" ||
        containsSub lower "full-time" then { acc with contractType := some "CDI" }
    else if containsSub lower "cdd" || containsSub lower "temporary" ||
        containsSub lower "contract" then { acc with contractType := some "CDD" }
    else if containsSub lower "intérim" || containsSub lower "interim" then
      { acc with contractType := some "Intérim" }
    else if containsSub lower "stage" || containsSub lower "intern" then
      { acc with contractType := some "Stage" }
    else if containsSub lower "apprenti" || containsSub lower "alternance" then
      { acc with contractType := some "Alternance" }
    else acc
  if containsSub lower "télétravail" || containsSub lower "remote" then
    (if containsSub lower "hybrid" || containsSub lower "hybride" ||
        containsSub lower "partiel" then { acc1 with remoteType := some "hybrid" }
    else { acc1 with remoteType := some "remote" })
  else acc1

def indJobDetails (doc : Doc) : INDetails :=
  (queryAllConcat doc indMetadataSelectors).foldl indDetailsStep {}

def indConfidence (offer : JobOffer) : ℚ :=
  jsMin (0.5
    + (if otruthy offer.title then 0.15 else 0)
    + (if otruthy offer.company then 0.1 else 0)
    + (if descLongerThan offer.description 200 then 0.15 else 0)
    + (if otruthy offer.location then 0.05 else 0)
    + (if offer.salary.isSome then 0.05 else 0)) 1

def indExtract (url : String) (doc : Doc) (now : Nat) : ExtractionResult :=
  let title := indTitle doc
  if !otruthy title then createEmptyResult "indeed" else
  let company := indCompany doc
  let location := indLocation doc
  let description := indDescription doc
  if !otruthy description then createEmptyResult "indeed" else
  let details := indJobDetails doc
  let offer : JobOffer :=
    { sourceUrl := url
      sourceDomain := getDomain url
      capturedAt := isoDateTime (Int.ofNat now)
      title := title
      company := company
      location := location
      description := description
      salary := indSalary doc
      contractType := details.contractType
      remoteType := some (match details.remoteType with
        | some r => r
        | none => detectRemoteType (oget description))
      skills := some (extractSkillsFromText (oget description)) }
  createSuccessResult "indeed" offer (indConfidence offer)

/-! ## Welcome to the Jungle extractor (src/extractors/welcometothejungle.ts) -/

def wtDomains : List String :=
  ["welcometothejungle.com", "www.welcometothejungle.com"]

/-- canHandle of the WTTJ extractor: like Indeed's, a constant substring
test on the shared domain inside the some-loop. -/
def wtCanHandle (url : String) : Bool :=
  let domain := getDomain url
  wtDomains.any (fun _ => containsSub domain "welcometothejungle")

def wtTitleSelectors : List String :=
  ["h1[class*=\"JobHeader\"]", "[data-testid=\"job-header-title\"]",
   "h1[class*=\"sc-\"]", "header h1", "h1"]

def wtTitle (doc : Doc) : Option String :=
  queryCascade doc
    (acceptText (fun t => decide (t.length > 2) && decide (t.length < 200)))
    wtTitleSelectors

def wtCompanySelectors : List String :=
  ["[data-testid=\"job-header-company-name\"]", "[class*=\"CompanyName\"]",
   "a[href*=\"/companies/\"]", "header a[class*=\"sc-\"]"]

def wtCompany (doc : Doc) : Option String :=
  queryCascade doc
    (acceptText (fun t => decide (t.length > 1) && decide (t.length < 100)))
    wtCompanySelectors

def wtLocationSelectors : List String :=
  ["[data-testid=\"job-header-location\"]", "[class*=\"Location\"]",
   "header [class*=\"sc-\"] span"]

def startsWith5Digits (s : String) : Bool :=
  decide ((s.data.take 5).length = 5) && (s.data.take 5).all isDigit

def wtLocation (doc : Doc) : Option String :=
  queryAllCascade doc (fun e =>
    let text := cleanTextS e.textContent
    if !text.isEmpty &&
        (containsSub text "," || containsSub text "Paris" || containsSub text "Lyon" ||
         containsSub text "France" || startsWith5Digits text) then some text
    else none) wtLocationSelectors

def wtDescriptionSelectors : List String :=
  ["[data-testid=\"job-section-description\"]", "[class*=\"JobDescription\"]",
   "[class*=\"sc-\"] div[class*=\"sc-\"] p", "article", "main section"]

def wtDescription (doc : Doc) : Option String :=
  match descCascade doc wtDescriptionSelectors with
  | some d => some d
  | none =>
    let sections := doc.queryAll "[data-testid^=\"job-section-\"]"
    if sections.length > 0 then
      let combinedMarkdown := joinSep "\n\n"
        ((sections.map (fun s => htmlToMarkdown s.innerHTML)).filter
          (fun t => !t.isEmpty && decide (t.length > 20)))
      if combinedMarkdown.length > 100 then some combinedMarkdown else none
    else none

structure WTDetails where
  contractType : Option String := none
  salary : Option Salary := none
  experience : Option String := none
  remoteType : Option String := none

def wtInfoSelectors : List String :=
  ["[data-testid*=\"job-info\"]", "[class*=\"JobInfo\"]", "header ul li",
   "header div[class*=\"sc-\"]"]

/-- The digits-then-k regex of the WTTJ salary guard. -/
def hasDigitK : List Char → Bool
  | [] => false
  | [_] => false
  | a :: b :: rest => (isDigit a && b = 'k') || hasDigitK (b :: rest)

def expUnitWords : List String := ["an", "année", "year"]

def expMatchAt (cs : List Char) : Option Nat :=
  let d := cs.takeWhile isDigit
  if d.isEmpty then none
  else if expUnitWords.any (fun w => listStartsWith (dropWs (cs.drop d.length)) w.data)
  then some (digitsToNat d) else none

/-- First match of the years-of-experience regex: the digit group. -/
def expYears : List Char → Option Nat
  | [] => none
  | cs@(_ :: t) =>
    match expMatchAt cs with
    | some n => some n
    | none => expYears t

def wtDetailsStep (acc : WTDetails) (text : String) : WTDetails :=
  let lower := jsLower text
  let acc1 :=
    if containsSub lower "cdi" then { acc with contractType := some "CDI" }
    else if containsSub lower "cdd" then { acc with contractType := some "CDD" }
    else if containsSub lower "stage" then { acc with contractType := some "Stage" }
    else if containsSub lower "alternance" || containsSub lower "apprentissage" then
      { acc with contractType := some "Alternance" }
    else if containsSub lower "freelance" || containsSub lower "indépendant" then
      { acc with contractType := some "Freelance" }
    else acc
  let acc2 :=
    if containsSub lower "€" || containsSub lower "eur" || hasDigitK lower.data then
      match parseSalary text with
      | some s => { acc1 with salary := some s }
      | none => acc1
    else acc1
  let acc3 :=
    match expYears lower.data with
    | some years =>
      if years ≤ 2 then { acc2 with experience := some "Junior (0-2 ans)" }
      else if years ≤ 5 then { acc2 with experience := some "Confirmé (3-5 ans)" }
      else { acc2 with experience := some "Senior (5+ ans)" }
    | none => acc2
  if containsSub lower "télétravail" || containsSub lower "remote" then
    (if containsSub lower "100%" || containsSub lower "full" then
      { acc3 with remoteType := some "remote" }
    else if containsSub lower "partiel" || containsSub lower "hybride" ||
        containsSub lower "jour" then { acc3 with remoteType := some "hybrid" }
    else { acc3 with remoteType := some "hybrid" })
  else if containsSub lower "présentiel" || containsSub lower "sur site" then
    { acc3 with remoteType := some "onsite" }
  else acc3

def wtMetadata (doc : Doc) : WTDetails :=
  let allText := ((queryAllConcat doc wtInfoSelectors).map
    (fun item => cleanTextS item.textContent)).filter (fun t => !t.isEmpty)
  allText.foldl wtDetailsStep {}

def wtSkillSelectors : List String :=
  ["[data-testid=\"job-section-stack\"] li", "[data-testid=\"job-section-skills\"] li",
   "[class*=\"TechStack\"] span", "[class*=\"Skill\"]"]

def wtSkills (doc : Doc) : Option (List String) := collectSkills doc wtSkillSelectors

def wtConfidence (offer : JobOffer) : ℚ :=
  jsMin (0.6
    + (if otruthy offer.title then 0.1 else 0)
    + (if otruthy offer.company then 0.1 else 0)
    + (if descLongerThan offer.description 200 then 0.1 else 0)
    + (if otruthy offer.location then 0.05 else 0)
    + (if skillsNonempty offer.skills then 0.05 else 0)) 1

def wtExtract (url : String) (doc : Doc) (now : Nat) : ExtractionResult :=
  let title := wtTitle doc
  if !otruthy title then createEmptyResult "welcometothejungle" else
  let company := wtCompany doc
  let location := wtLocation doc
  let description := wtDescription doc
  if !otruthy description then createEmptyResult "welcometothejungle" else
  let metadata := wtMetadata doc
  let offer : JobOffer :=
    { sourceUrl := url
      sourceDomain := "welcometothejungle.com"
      capturedAt := isoDateTime (Int.ofNat now)
      title := title
      company := company
      location := location
      description := description
      contractType := metadata.contractType
      salary := metadata.salary
      experience := metadata.experience
      remoteType := some (match metadata.remoteType with
        | some r => r
        | none => detectRemoteType (oget description))
      skills := some (match wtSkills doc with
        | some l => l
        | none => extractSkillsFromText (oget description)) }
  createSuccessResult "welcometothejungle" offer (wtConfidence offer)

/-! ## Generic extractor (src/extractors/generic.ts) -/

/-- The strict-equality JobPosting type test on a parsed JSON item.  A
property read on a JS primitive yields undefined (jlookup none); a property
read on null throws, which the callers handle. -/
def jpType (j : Json) : Bool :=
  match jlookup j "@type" with
  | some (.str s) => s = "JobPosting"
  | _ => false

/-- Array.isArray unwrapping of a parsed JSON-LD payload. -/
def toItems : Json → List Json
  | .arr xs => xs
  | j => [j]

def jsonLdSelector : String := "script[type=\"application/ld+json\"]"

/-- The find call over an at-graph array in extractJsonLd; a null entry
makes the callback's property read throw (outer none), aborting the
enclosing script's scan. -/
def graphFindJP : List Json → Option (Option Json)
  | [] => some none
  | .null :: _ => none
  | g :: rest => if jpType g then some (some g) else graphFindJP rest

/-- One script's item scan in extractJsonLd.  A null item, a find call on a
truthy non-array at-graph value, or a null at-graph entry throws; the throw
is caught per script, so the script contributes nothing. -/
def scriptFindJP : List Json → Option Json
  | [] => none
  | .null :: _ => none
  | item :: rest =>
    if jpType item then some item
    else
      match jlookup item "@graph" with
      | some g =>
        if g.truthy then
          match g with
          | .arr xs =>
            (match graphFindJP xs with
            | some (some jp) => some jp
            | some none => scriptFindJP rest
            | none => none)
          | _ => none
        else scriptFindJP rest
      | none => scriptFindJP rest

def extractJsonLd (doc : Doc) : Option Json :=
  (doc.queryAll jsonLdSelector).findSome? (fun script =>
    match script.jsonData with
    | some data => scriptFindJP (toItems data)
    | none => none)

def applyJTitle (offer : JobOffer) (data : Json) : JobOffer :=
  match jsonStrProp data "title" with
  | some s => { offer with title := some (cleanTextS s) }
  | none => offer

def applyJDescription (offer : JobOffer) (data : Json) : JobOffer :=
  match jsonStrProp data "description" with
  | some s => { offer with description := some (htmlToMarkdown s) }
  | none => offer

def applyJCompany (offer : JobOffer) (data : Json) : JobOffer :=
  match jlookup data "hiringOrganization" with
  | some org =>
    (match jsonStrProp org "name" with
    | some s => { offer with company := some (cleanTextS s) }
    | none => offer)
  | none => offer

def applyJLocation (offer : JobOffer) (data : Json) : JobOffer :=
  match jlookup data "jobLocation" with
  | some loc =>
    (match jlookup loc "address" with
    | some addr =>
      if addr.truthy then
        let parts := [jsonStrProp addr "addressLocality", jsonStrProp addr "addressRegion",
          jsonStrProp addr "addressCountry"].filterMap id
        { offer with location := some (joinSep ", " parts) }
      else offer
    | none => offer)
  | none => offer

def normalizeContractType (type_ : String) : String :=
  let lower := jsLower type_
  if containsSub lower "full" || containsSub lower "permanent" || lower = "cdi" then "CDI"
  else if containsSub lower "temporary" || containsSub lower "contract" || lower = "cdd"
    then "CDD"
  else if containsSub lower "intern" || containsSub lower "stage" then "Stage"
  else if containsSub lower "freelance" || containsSub lower "contractor" then "Freelance"
  else if containsSub lower "part-time" || containsSub lower "partiel" then "Temps partiel"
  else if containsSub lower "apprenti" then "Alternance"
  else type_

def applyJContract (offer : JobOffer) (data : Json) : JobOffer :=
  match jsonStrProp data "employmentType" with
  | some s => { offer with contractType := some (normalizeContractType s) }
  | none => offer

def normalizeSalaryPeriod (period : Option String) : String :=
  if !otruthy period then "year"
  else
    let lower := jsLower (oget period)
    if containsSub lower "hour" || containsSub lower "heure" then "hour"
    else if containsSub lower "day" || containsSub lower "jour" then "day"
    else if containsSub lower "month" || containsSub lower "mois" then "month"
    else "year"

def applyJSalary (offer : JobOffer) (data : Json) : JobOffer :=
  match jlookup data "baseSalary" with
  | some bs =>
    (match jlookup bs "value" with
    | some v =>
      if v.truthy then
        { offer with salary := some {
            min := jsonNumProp v "minValue"
            max := jsonNumProp v "maxValue"
            currency := (match jlookup bs "currency" with
              | some (.str s) => s
              | _ => "EUR")
            period := normalizeSalaryPeriod (match jlookup v "unitText" with
              | some (.str s) => some s
              | _ => none) } }
      else offer
    | none => offer)
  | none => offer

def applyJDate (offer : JobOffer) (data : Json) : JobOffer :=
  match jsonStrProp data "datePosted" with
  | some s => { offer with publishedAt := some s }
  | none => offer

def jsonAsStr : Json → String
  | .str s => s
  | _ => ""

def applyJSkills (offer : JobOffer) (data : Json) : JobOffer :=
  match jlookup data "skills" with
  | some sk =>
    if sk.truthy then
      { offer with skills := some (match sk with
        | .arr xs => xs.map jsonAsStr
        | j => [jsonAsStr j]) }
    else offer
  | none => offer

def applyJsonLdData (offer : JobOffer) (data : Json) : JobOffer :=
  applyJSkills (applyJDate (applyJSalary (applyJContract (applyJLocation (applyJCompany
    (applyJDescription (applyJTitle offer data) data) data) data) data) data) data) data

def metaContent (doc : Doc) (sel : String) : Option String :=
  (doc.queryOne sel).bind (fun e => e.getAttribute "content")

def extractMetaTags (offer : JobOffer) (doc : Doc) : JobOffer :=
  let ogTitle := metaContent doc "meta[property=\"og:title\"]"
  let ogDesc := metaContent doc "meta[property=\"og:description\"]"
  let ogSiteName := metaContent doc "meta[property=\"og:site_name\"]"
  let twitterTitle := metaContent doc "meta[name=\"twitter:title\"]"
  let twitterDesc := metaContent doc "meta[name=\"twitter:description\"]"
  let metaDesc := metaContent doc "meta[name=\"description\"]"
  let o1 :=
    if !otruthy offer.title && (otruthy ogTitle || otruthy twitterTitle) then
      { offer with title := some (cleanText (if ogTitle.isSome then ogTitle else twitterTitle)) }
    else offer
  let o2 :=
    if !otruthy o1.description && (otruthy ogDesc || otruthy twitterDesc || otruthy metaDesc)
    then
      { o1 with description := some (cleanText
          (if ogDesc.isSome then ogDesc else if twitterDesc.isSome then twitterDesc
           else metaDesc)) }
    else o1
  if !otruthy o2.company && otruthy ogSiteName then
    { o2 with company := some (cleanText ogSiteName) }
  else o2

def genTitleSelectors : List String :=
  ["h1[class*=\"job-title\"]", "h1[class*=\"jobtitle\"]", "h1[class*=\"position\"]",
   "[class*=\"job-title\"] h1", "[class*=\"job-header\"] h1",
   "[data-testid*=\"job-title\"]", "h1"]

/-- The separator class of the document-title cleanup split (the source's
class literally contains the bytes of a mojibake en dash next to the pipe
and dash). -/
def titleSepChars : List Char := ['|', 'â', '€', '“', '-']

/-- extractTitle of the generic extractor.  The document-title fallback
keeps the split's first piece: the prefix before the first separator
character (the whitespace the regex would consume around the separator is
removed by the cleanText call that follows). -/
def genTitle (doc : Doc) : Option String :=
  match queryCascade doc
      (acceptText (fun t => decide (t.length > 3) && decide (t.length < 200)))
      genTitleSelectors with
  | some t => some t
  | none =>
    if !doc.title.isEmpty then
      some (cleanTextS (String.mk (doc.title.data.takeWhile
        (fun c => !titleSepChars.contains c))))
    else none

def genDescriptionSelectors : List String :=
  ["[class*=\"job-description\"]", "[class*=\"jobdescription\"]",
   "[class*=\"description-content\"]", "[data-testid*=\"job-description\"]",
   "[id*=\"job-description\"]", "article", "main"]

def genDescription (doc : Doc) : Option String := descCascade doc genDescriptionSelectors

def genCompanySelectors : List String :=
  ["[class*=\"company-name\"]", "[class*=\"companyname\"]", "[class*=\"employer\"]",
   "[data-testid*=\"company\"]", "[class*=\"hiring-organization\"]"]

def genCompany (doc : Doc) : Option String :=
  queryCascade doc
    (acceptText (fun t => decide (t.length > 1) && decide (t.length < 100)))
    genCompanySelectors

def genLocationSelectors : List String :=
  ["[class*=\"job-location\"]", "[class*=\"joblocation\"]", "[class*=\"location\"]",
   "[data-testid*=\"location\"]", "[class*=\"address\"]"]

def genLocation (doc : Doc) : Option String :=
  queryCascade doc
    (acceptText (fun t => decide (t.length > 1) && decide (t.length < 200)))
    genLocationSelectors

def calculateConfidence (offer : JobOffer) : ℚ :=
  jsMin (0
    + (if otruthy offer.title then 0.25 else 0)
    + (if descLongerThan offer.description 200 then 0.25 else 0)
    + (if otruthy offer.company then 0.15 else 0)
    + (if otruthy offer.location then 0.1 else 0)
    + (if offer.salary.isSome then 0.1 else 0)
    + (if skillsNonempty offer.skills then 0.1 else 0)
    + (if otruthy offer.contractType then 0.05 else 0)) 1

def genStep1 (jsonLd : Option Json) (offer : JobOffer) : JobOffer :=
  match jsonLd with
  | some data => applyJsonLdData offer data
  | none => offer

def genStep3 (doc : Doc) (offer : JobOffer) : JobOffer :=
  let o1 := if !otruthy offer.title then { offer with title := genTitle doc } else offer
  let o2 :=
    if !otruthy o1.description then { o1 with description := genDescription doc } else o1
  let o3 := if !otruthy o2.company then { o2 with company := genCompany doc } else o2
  if !otruthy o3.location then { o3 with location := genLocation doc } else o3

def genStep4 (offer : JobOffer) : JobOffer :=
  if otruthy offer.description && !skillsNonempty offer.skills then
    { offer with skills := some (extractSkillsFromText (oget offer.description)) }
  else offer

def genStep5 (offer : JobOffer) : JobOffer :=
  let fullText := oget offer.title ++ " " ++ oget offer.description
  if !otruthy offer.remoteType || offer.remoteType = some "unknown" then
    { offer with remoteType := some (detectRemoteType fullText) }
  else offer

def genOffer (url : String) (doc : Doc) (now : Nat) : JobOffer :=
  genStep5 (genStep4 (genStep3 doc (extractMetaTags (genStep1 (extractJsonLd doc)
    { sourceUrl := url
      sourceDomain := getDomain url
      capturedAt := isoDateTime (Int.ofNat now) }) doc)))

def genExtract (url : String) (doc : Doc) (now : Nat) : ExtractionResult :=
  let jsonLd := extractJsonLd doc
  let offer := genOffer url doc now
  let confidence := if jsonLd.isSome then (0.9 : ℚ) else calculateConfidence offer
  if !otruthy offer.title || !otruthy offer.description then createEmptyResult "generic"
  else createSuccessResult "generic" offer confidence

/-! ## Extractor registry (src/extractors/index.ts) -/

/-- An extraction strategy as the registry consumes it.  The extract call is
an Except so that a fault raised inside one strategy is representable; the
four concrete strategies of this repository are total and always return ok. -/
structure Strategy where
  name : String
  priority : Int
  canHandle : String → Doc → Bool
  extract : String → Doc → Nat → Except String ExtractionResult

def linkedInStrategy : Strategy :=
  { name := "linkedin", priority := 10,
    canHandle := fun url _ => linkedInCanHandle url,
    extract := fun url doc now => .ok (liExtract url doc now) }

def indeedStrategy : Strategy :=
  { name := "indeed", priority := 10,
    canHandle := fun url _ => indeedCanHandle url,
    extract := fun url doc now => .ok (indExtract url doc now) }

def welcomeStrategy : Strategy :=
  { name := "welcometothejungle", priority := 10,
    canHandle := fun url _ => wtCanHandle url,
    extract := fun url doc now => .ok (wtExtract url doc now) }

def genericStrategy : Strategy :=
  { name := "generic", priority := 0,
    canHandle := fun _ _ => true,
    extract := fun url doc now => .ok (genExtract url doc now) }

/-- The registration-order list the registry is built from. -/
def registeredExtractors : List Strategy :=
  [linkedInStrategy, indeedStrategy, welcomeStrategy, genericStrategy]

def insertByPriorityDesc (x : Strategy) : List Strategy → List Strategy
  | [] => [x]
  | y :: ys =>
    if x.priority < y.priority then y :: insertByPriorityDesc x ys else x :: y :: ys

/-- Modelled platform builtin: Array.prototype.sort with the descending
priority comparator.  The ES specification requires a stable sort consistent
with the comparator, which determines the result uniquely; a stable
insertion sort realises it. -/
def sortByPriorityDesc (l : List Strategy) : List Strategy :=
  l.foldr insertByPriorityDesc []

def extractors : List Strategy := sortByPriorityDesc registeredExtractors

/-- The fallback loop of extractJobOffer: first canHandle-ing strategy whose
extract returns success with a present offer wins; a fault is caught and the
loop continues; exhaustion yields the canonical empty result named none. -/
def runStrategies (url : String) (doc : Doc) (now : Nat) : List Strategy → ExtractionResult
  | [] => createEmptyResult "none"
  | s :: rest =>
    if s.canHandle url doc then
      match s.extract url doc now with
      | .ok result =>
        if result.success && result.offer.isSome then result
        else runStrategies url doc now rest
      | .error _ => runStrategies url doc now rest
    else runStrategies url doc now rest

def extractJobOffer (url : String) (doc : Doc) (now : Nat) : ExtractionResult :=
  runStrategies url doc now extractors

/-! ## Page classifier (src/extractors/index.ts) -/

def jobSiteDomains : List String :=
  ["linkedin.com", "indeed.com", "indeed.fr", "welcometothejungle.com",
   "glassdoor.com", "glassdoor.fr", "monster.fr", "monster.com", "apec.fr",
   "pole-emploi.fr", "francetravail.fr", "hellowork.com", "cadremploi.fr",
   "talent.com", "jobteaser.com"]

/-- The first-occurrence replace of www. applied to each allow-list entry
(no entry contains it; reproduced faithfully). -/
def replaceFirstWww (d : String) : String :=
  match findSubIdx d.data "www.".data with
  | some i => String.mk (d.data.take i ++ d.data.drop (i + 4))
  | none => d

def isKnownJobSite (url : String) : Bool :=
  let domain := getDomain url
  jobSiteDomains.any (fun d => containsSub domain (replaceFirstWww d))

def pathIndicators : List String :=
  ["/jobs/", "/job/", "/offre/", "/emploi/", "/career/", "/carriere/"]

def hasJobPath (url : String) : Bool :=
  pathIndicators.any (fun p => containsSub (jsLower url) p)

def slugChar (c : Char) : Bool := ('a' ≤ c && c ≤ 'z') || isDigit c || c = '-'

def scanAny (check : List Char → Bool) : List Char → Bool
  | [] => check []
  | cs@(_ :: t) => check cs || scanAny check t

/-- The four job URL regex patterns of isJobPage: a jobs/view path followed
by a digit, case-insensitive job or offre slug paths, and a
case-insensitive viewjob substring. -/
def hasJobUrl (url : String) : Bool :=
  let raw := url.data
  let lower := (jsLower url).data
  scanAny (fun cs =>
    listStartsWith cs "/jobs/view/".data && isDigit ((cs.drop 11).headD ' ')) raw ||
  scanAny (fun cs =>
    listStartsWith cs "/job/".data && slugChar ((cs.drop 5).headD ' ')) lower ||
  scanAny (fun cs =>
    listStartsWith cs "/offre/".data && slugChar ((cs.drop 7).headD ' ')) lower ||
  containsSub (jsLower url) "viewjob"

def urlKeywords : List String :=
  ["job", "career", "emploi", "offre", "recrutement", "hiring", "vacancy", "position"]

def titleKeywords : List String :=
  ["job", "career", "emploi", "poste", "recrutement", "hiring", "developer",
   "engineer", "manager"]

def jobElementSelectors : List String :=
  ["[class*=\"job-description\"]", "[class*=\"job-title\"]", "[class*=\"apply\"]",
   "[id*=\"job-description\"]", "button[class*=\"apply\"]", "a[href*=\"apply\"]"]

/-- The some call over an at-graph value in the heuristics (optional
chaining guards only null; a null entry or a some call on a non-array
throws, caught per script). -/
def graphAnyJP : List Json → Option Bool
  | [] => some false
  | .null :: _ => none
  | g :: rest => if jpType g then some true else graphAnyJP rest

def itemsHitJP : List Json → Bool
  | [] => false
  | .null :: _ => false
  | item :: rest =>
    if jpType item then true
    else
      match jlookup item "@graph" with
      | none => itemsHitJP rest
      | some .null => itemsHitJP rest
      | some (.arr xs) =>
        (match graphAnyJP xs with
        | some true => true
        | some false => itemsHitJP rest
        | none => false)
      | some _ => false

def structuredDataScoreOf (doc : Doc) : Nat :=
  if (doc.queryAll jsonLdSelector).any (fun script =>
    match script.jsonData with
    | some data => itemsHitJP (toItems data)
    | none => false) then 5 else 0

def urlScoreOf (url : String) : Nat :=
  (urlKeywords.filter (fun k => containsSub (jsLower url) k)).length

def titleScoreOf (doc : Doc) : Nat :=
  if titleKeywords.any (fun k => containsSub (jsLower doc.title) k) then 2 else 0

def elementScoreOf (doc : Doc) : Nat :=
  if jobElementSelectors.any (fun s => (doc.queryOne s).isSome) then 2 else 0

def detectJobPageHeuristics (url : String) (doc : Doc) : Bool :=
  let urlScore := urlScoreOf url
  let contentScore := titleScoreOf doc + elementScoreOf doc
  let structuredDataScore := structuredDataScoreOf doc
  decide (urlScore + contentScore + structuredDataScore ≥ 3)

def isJobPage (url : String) (doc : Doc) : Bool :=
  if isKnownJobSite url then hasJobPath url || hasJobUrl url
  else detectJobPageHeuristics url doc

/-! ## Specification-side definitions

These definitions follow the wording of the specification (not the code)
and are compared with the source translations in the refinement-style
theorems below. -/

/-- A JSON-LD JobPosting block is found in the document, including one
level of at-graph unwrapping (the predicate of the heuristic scorer's
structured-data signal). -/
def docHasJobPostingLd (doc : Doc) : Bool :=
  (doc.queryAll jsonLdSelector).any (fun script =>
    match script.jsonData with
    | some data => itemsHitJP (toItems data)
    | none => false)

/-- The heuristic score as the specification words it: the count of URL
keyword hits, plus a fixed two for any page-title keyword hit, plus a fixed
two for any matching job-related selector, plus a fixed five for an
embedded JSON-LD JobPosting. -/
def specHeuristicScore (url : String) (doc : Doc) : Nat :=
  (urlKeywords.countP (fun k => containsSub (jsLower url) k)) +
  (if titleKeywords.any (fun k => containsSub (jsLower doc.title) k) then 2 else 0) +
  (if jobElementSelectors.any (fun sel => (doc.queryOne sel).isSome) then 2 else 0) +
  (if docHasJobPostingLd doc then 5 else 0)

/-- The weighted confidence sum as the specification words it: title 0.25,
description longer than 200 characters 0.25, company 0.15, location 0.10,
salary 0.10, non-empty skills 0.10, contract type 0.05. -/
def specWeightSum (o : JobOffer) : ℚ :=
  (if otruthy o.title then 0.25 else 0) +
  (if descLongerThan o.description 200 then 0.25 else 0) +
  (if otruthy o.company then 0.15 else 0) +
  (if otruthy o.location then 0.1 else 0) +
  (if o.salary.isSome then 0.1 else 0) +
  (if skillsNonempty o.skills then 0.1 else 0) +
  (if otruthy o.contractType then 0.05 else 0)

/-- The remote keyword groups as the specification lists them. -/
def remoteKw (s : String) : Bool :=
  containsSub (jsLower s) "full remote" || containsSub (jsLower s) "100% remote" ||
  containsSub (jsLower s) "télétravail complet"

def hybridKw (s : String) : Bool :=
  containsSub (jsLower s) "hybrid" || containsSub (jsLower s) "hybride" ||
  containsSub (jsLower s) "télétravail partiel"

def onsiteKw (s : String) : Bool :=
  containsSub (jsLower s) "on-site" || containsSub (jsLower s) "sur site" ||
  containsSub (jsLower s) "présentiel"

/-- Erasing the fields assigned from the extraction-time clock (capturedAt
always, publishedAt because LinkedIn resolves relative dates against the
clock). -/
def eraseClock (o : JobOffer) : JobOffer :=
  { o with capturedAt := "", publishedAt := none }

def eraseClockR (r : ExtractionResult) : ExtractionResult :=
  { r with offer := r.offer.map eraseClock }

/-! ## Concrete sample documents used by the witnesses -/

def metaEl (v : String) : Element := { attrs := [("content", v)] }

/-- A page with only OpenGraph title and description meta tags: every
selector cascade misses, the generic extractor succeeds through the meta
tags. -/
def sampleMetaDoc : Doc :=
  { title := ""
    queryOne := fun s =>
      if s = "meta[property=\"og:title\"]" then some (metaEl "Dev")
      else if s = "meta[property=\"og:description\"]" then some (metaEl "Great job")
      else none
    queryAll := fun _ => [] }

/-- A JSON-LD script element whose parsed content is a bare JobPosting
object with no fields. -/
def bareJobPostingScript : Element :=
  { textContent := "\x7b\"@type\": \"JobPosting\"\x7d"
    jsonData := some (.obj [("@type", .str "JobPosting")]) }

/-- A page whose only signal is a bare JSON-LD JobPosting block: structured
data is found but no title or description can be extracted. -/
def sampleBareLdDoc : Doc :=
  { queryAll := fun s => if s = jsonLdSelector then [bareJobPostingScript] else [] }

/-- A page on a known job domain carrying a JSON-LD JobPosting and a
job-keyword title, so the heuristic scorer would say yes. -/
def sampleRichLdDoc : Doc :=
  { title := "Software Engineer job"
    queryAll := fun s => if s = jsonLdSelector then [bareJobPostingScript] else [] }

/-- A JSON-LD script whose JobPosting carries a title and description. -/
def titledJobPostingScript : Element :=
  { textContent := "\x7b\"@type\": \"JobPosting\", \"title\": \"Dev\", \"description\": \"A very nice position\"\x7d"
    jsonData := some (.obj
      [("@type", .str "JobPosting"), ("title", .str "Dev"),
       ("description", .str "A very nice position")]) }

def sampleTitledLdDoc : Doc :=
  { queryAll := fun s => if s = jsonLdSelector then [titledJobPostingScript] else [] }

/-- A page whose only signal is its document title. -/
def sampleTitleOnlyDoc : Doc := { title := "Software Engineer" }

/-- An always-handling strategy whose extract raises a fault. -/
def faultyStrategy : Strategy :=
  { name := "faulty", priority := 99,
    canHandle := fun _ _ => true,
    extract := fun _ _ _ => .error "boom" }

/-! # Theorems -/

/-!
Batteries marks the rational operations irreducible, which blocks the
evaluation of concrete confidence values inside decide; from here on they
are restored to the default reducibility.
-/

attribute [local semireducible] Rat.add Rat.mul Rat.inv

/-! ## C5: renderer reference equations -/

/-- C5: the markup-to-Markdown renderer satisfies the three reference
equations of the specification: a level-one heading renders to a hash
prefix, an unordered list renders each top-level item with a dash prefix
joined by single newlines, and strong renders to double asterisks — all
after the cleanup pass. -/
theorem c5_renderer_reference_equations :
    htmlToMarkdown "<h1>Title</h1>" = "# Title" ∧
    htmlToMarkdown "<ul><li>a</li><li>b</li></ul>" = "- a\n- b" ∧
    htmlToMarkdown "<strong>x</strong>" = "**x**" := by
  refine ⟨by decide, by decide, by decide⟩

/-! ## C7: remote-type detector -/

/-- C7 counterexample: the claim asserts detectRemoteType of the string
100% télétravail is remote, but that string contains none of the remote
keywords (full remote, 100% remote, télétravail complet), so the code
returns unknown. -/
theorem c7_remote_counterexample :
    detectRemoteType "100% télétravail" = "unknown" ∧
    detectRemoteType "100% télétravail" ≠ "remote" := by
  refine ⟨by decide, by decide⟩

/-- C7 amended: detectRemoteType is a bilingual substring match applying
its three rules in order with first-match-wins and unknown otherwise; in
particular detectRemoteType of sur site is onsite, while detectRemoteType
of 100% télétravail is unknown (not remote: that input matches none of the
remote keywords). -/
theorem c7_remote_amended :
    (∀ s, remoteKw s = true → detectRemoteType s = "remote") ∧
    (∀ s, remoteKw s = false → hybridKw s = true → detectRemoteType s = "hybrid") ∧
    (∀ s, remoteKw s = false → hybridKw s = false → onsiteKw s = true →
      detectRemoteType s = "onsite") ∧
    (∀ s, remoteKw s = false → hybridKw s = false → onsiteKw s = false →
      detectRemoteType s = "unknown") ∧
    detectRemoteType "sur site" = "onsite" ∧
    detectRemoteType "100% télétravail" = "unknown" := by
  refine ⟨?_, ?_, ?_, ?_, by decide, by decide⟩ <;>
    intro s <;> intros <;>
    simp only [detectRemoteType] <;>
    split_ifs <;> simp_all [remoteKw, hybridKw, onsiteKw]

/-- C7 witness: the amended theorem applied at concrete inputs from each
rule group. -/
theorem c7_remote_amended_witness :
    detectRemoteType "Full Remote role" = "remote" ∧
    detectRemoteType "travail hybride" = "hybrid" ∧
    detectRemoteType "sur site" = "onsite" ∧
    detectRemoteType "rien du tout" = "unknown" :=
  ⟨c7_remote_amended.1 "Full Remote role" (by decide),
   c7_remote_amended.2.1 "travail hybride" (by decide) (by decide),
   c7_remote_amended.2.2.1 "sur site" (by decide) (by decide) (by decide),
   c7_remote_amended.2.2.2.1 "rien du tout" (by decide) (by decide) (by decide)⟩

/-! ## C8: site-specific canHandle -/

/-- C8 counterexample: the claim asserts canHandle is false for every URL
whose domain is not in the strategy's recognized domain list, but the
Indeed and WTTJ tests are substring tests on the domain, so unrelated
domains containing the substring are accepted. -/
theorem c8_canHandle_counterexample :
    indeedCanHandle "https://notindeed.com/jobs/1" = true ∧
    indeedDomains.contains (getDomain "https://notindeed.com/jobs/1") = false ∧
    wtCanHandle "https://fakewelcometothejungle.evil.com/x" = true ∧
    wtDomains.contains (getDomain "https://fakewelcometothejungle.evil.com/x") = false := by
  refine ⟨by decide, by decide, by decide, by decide⟩

/-- C8 amended: LinkedIn's canHandle is exact domain-list membership
together with the jobs path substring (so it is false whenever the domain
is outside its list), while Indeed's and WTTJ's canHandle hold exactly when
the URL's domain contains the substring indeed, respectively
welcometothejungle — a superset of their recognized domain lists. -/
theorem c8_canHandle_amended :
    (∀ url, linkedInCanHandle url =
      (linkedInDomains.contains (getDomain url) && containsSub url "/jobs/")) ∧
    (∀ url, linkedInDomains.contains (getDomain url) = false →
      linkedInCanHandle url = false) ∧
    (∀ url, indeedCanHandle url = containsSub (getDomain url) "indeed") ∧
    (∀ url, wtCanHandle url = containsSub (getDomain url) "welcometothejungle") := by
  refine ⟨fun url => rfl, ?_, ?_, ?_⟩
  · intro url h
    simp only [linkedInCanHandle]
    rw [h]
    simp
  · intro url
    unfold indeedCanHandle indeedDomains
    simp
  · intro url
    unfold wtCanHandle wtDomains
    simp

/-- C8 witness: the amended theorem applied at concrete URLs. -/
theorem c8_canHandle_amended_witness :
    linkedInCanHandle "https://example.com/jobs/1" = false ∧
    indeedCanHandle "https://fr.indeed.com/viewjob?jk=1" = true ∧
    wtCanHandle "https://www.welcometothejungle.com/fr/jobs/x" = true :=
  ⟨c8_canHandle_amended.2.1 "https://example.com/jobs/1" (by decide),
   by rw [c8_canHandle_amended.2.2.1 "https://fr.indeed.com/viewjob?jk=1"]; decide,
   by rw [c8_canHandle_amended.2.2.2 "https://www.welcometothejungle.com/fr/jobs/x"]; decide⟩

/-! ## C6: salary parser -/

/-- C6 counterexample: the claim asserts the period of a single-value input
is inferred from the suffix substring (mois giving month), but the
single-value branch of parseSalary always returns the period year; on
3000€/mois the code yields year, not month. -/
theorem c6_parseSalary_counterexample :
    parseSalary "3000€/mois" =
      some { min := some 3000, max := some 3000, currency := "EUR", period := "year" } ∧
    ¬ (∃ s, parseSalary "3000€/mois" = some s ∧ s.period = "month") := by
  refine ⟨by decide, by decide⟩

/-- C6 amended: the range example holds as claimed; every input matching
neither pattern yields the absent result; but a single-value match always
yields period year (the suffix-based period inference applies only to the
range branch), with min and max the k-scaled number and the currency read
off the symbol — so 3000€/mois parses to 3000-3000 EUR per year. -/
theorem c6_parseSalary_amended :
    parseSalary "45k-55k€" =
      some { min := some 45000, max := some 55000, currency := "EUR", period := "year" } ∧
    parseSalary "3000€/mois" =
      some { min := some 3000, max := some 3000, currency := "EUR", period := "year" } ∧
    (∀ text v, text.isEmpty = false →
      findRange (normalizeSalaryText text) = none →
      findSingle (normalizeSalaryText text) = some v →
      parseSalary text = some
        { min := some (Int.ofNat (if v < 1000 ∧ (normalizeSalaryText text).contains 'k'
            then v * 1000 else v))
          max := some (Int.ofNat (if v < 1000 ∧ (normalizeSalaryText text).contains 'k'
            then v * 1000 else v))
          currency :=
            if (normalizeSalaryText text).contains '£' then "GBP"
            else if (normalizeSalaryText text).contains '$' then "USD" else "EUR"
          period := "year" }) ∧
    (∀ text, findRange (normalizeSalaryText text) = none →
      findSingle (normalizeSalaryText text) = none → parseSalary text = none) := by
  refine ⟨by decide, by decide, ?_, ?_⟩
  · intro text v hne hr hs
    simp only [parseSalary, hne, hr, hs, Bool.false_eq_true, if_false]
  · intro text hr hs
    by_cases hne : text.isEmpty
    · simp only [parseSalary, hne, if_true]
    · simp only [parseSalary, hr, hs]
      simp [hne]

/-- C6 witness: the amended theorem's two quantified conjuncts applied at
the inputs 3000€/mois and hello. -/
theorem c6_parseSalary_amended_witness :
    parseSalary "3000€/mois" = some
      { min := some (Int.ofNat (if 3000 < 1000 ∧ (normalizeSalaryText "3000€/mois").contains 'k'
          then 3000 * 1000 else 3000))
        max := some (Int.ofNat (if 3000 < 1000 ∧ (normalizeSalaryText "3000€/mois").contains 'k'
          then 3000 * 1000 else 3000))
        currency :=
          if (normalizeSalaryText "3000€/mois").contains '£' then "GBP"
          else if (normalizeSalaryText "3000€/mois").contains '$' then "USD" else "EUR"
        period := "year" } ∧
    parseSalary "hello" = none :=
  ⟨c6_parseSalary_amended.2.2.1 "3000€/mois" 3000 (by decide) (by decide) (by decide),
   c6_parseSalary_amended.2.2.2 "hello" (by decide) (by decide)⟩

/-! ## C3 and C10: page classifier -/

/-- C3: on an allow-listed domain with a known job path segment, isJobPage
is true, and on any allow-listed domain its value does not consult the tree
at all (the heuristic scorer is not evaluated); on an unknown domain it is
true exactly when the specification's summed heuristic score — URL keyword
hits, plus two for a title keyword hit, plus two for a job-related DOM
selector match, plus five for an embedded JSON-LD JobPosting — reaches the
threshold three. -/
theorem c3_isJobPage_decision :
    (∀ url doc, isKnownJobSite url = true → hasJobPath url = true →
      isJobPage url doc = true) ∧
    (∀ url (doc doc' : Doc), isKnownJobSite url = true →
      isJobPage url doc = isJobPage url doc') ∧
    (∀ url doc, isKnownJobSite url = false →
      (isJobPage url doc = true ↔ 3 ≤ specHeuristicScore url doc)) := by
  refine ⟨?_, ?_, ?_⟩
  · intro url doc h1 h2
    simp [isJobPage, h1, h2]
  · intro url doc doc' h
    simp [isJobPage, h]
  · intro url doc h
    have hsc : specHeuristicScore url doc =
        urlScoreOf url + (titleScoreOf doc + elementScoreOf doc) +
          structuredDataScoreOf doc := by
      simp only [specHeuristicScore, urlScoreOf, titleScoreOf, elementScoreOf,
        structuredDataScoreOf, docHasJobPostingLd, List.countP_eq_length_filter]
      ring
    simp only [isJobPage, h, Bool.false_eq_true, if_false, detectJobPageHeuristics, hsc,
      ge_iff_le, decide_eq_true_eq]

/-- C3 witness: the theorem applied on a known domain with a jobs path, and
on an unknown domain at pages scoring exactly three (true) and two
(false). -/
theorem c3_isJobPage_decision_witness :
    isJobPage "https://fr.indeed.com/jobs/view?x=1" sampleMetaDoc = true ∧
    (isJobPage "https://example.com/job-openings" sampleTitleOnlyDoc = true ↔
      3 ≤ specHeuristicScore "https://example.com/job-openings" sampleTitleOnlyDoc) ∧
    isJobPage "https://example.com/job-openings" sampleTitleOnlyDoc = true ∧
    specHeuristicScore "https://example.com/job-openings" sampleTitleOnlyDoc = 3 ∧
    isJobPage "https://example.com/about" sampleTitleOnlyDoc = false ∧
    specHeuristicScore "https://example.com/about" sampleTitleOnlyDoc = 2 :=
  ⟨c3_isJobPage_decision.1 "https://fr.indeed.com/jobs/view?x=1" sampleMetaDoc
      (by decide) (by decide),
   c3_isJobPage_decision.2.2 "https://example.com/job-openings" sampleTitleOnlyDoc
      (by decide),
   by decide, by decide, by decide, by decide⟩

/-- C10: for a URL on an allow-listed domain carrying none of the known job
path segments and matching none of the job URL patterns, isJobPage is false
for every tree — the heuristic scorer is never consulted for allow-listed
domains, whatever the tree contains. -/
theorem c10_known_domain_no_heuristics (url : String) (doc : Doc)
    (h1 : isKnownJobSite url = true) (h2 : hasJobPath url = false)
    (h3 : hasJobUrl url = false) :
    isJobPage url doc = false := by
  simp [isJobPage, h1, h2, h3]

/-- C10 witness: the LinkedIn feed URL with a tree whose embedded JSON-LD
JobPosting and keyword title would score well over the threshold — the
heuristics say yes, isJobPage still says no. -/
theorem c10_known_domain_no_heuristics_witness :
    isJobPage "https://www.linkedin.com/feed" sampleRichLdDoc = false ∧
    detectJobPageHeuristics "https://www.linkedin.com/feed" sampleRichLdDoc = true :=
  ⟨c10_known_domain_no_heuristics "https://www.linkedin.com/feed" sampleRichLdDoc
      (by decide) (by decide) (by decide),
   by decide⟩

/-! ## Shape and bound lemmas for the four extractors -/

theorem liExtract_shape (url : String) (doc : Doc) (now : Nat) :
    liExtract url doc now = createEmptyResult "linkedin" ∨
    ∃ o, liExtract url doc now = createSuccessResult "linkedin" o (liConfidence o) ∧
      otruthy o.title = true ∧ otruthy o.description = true := by
  simp only [liExtract]
  split_ifs with h1 h2
  · exact Or.inl rfl
  · exact Or.inl rfl
  · right
    refine ⟨_, rfl, ?_, ?_⟩
    · simpa using h1
    · simpa using h2

theorem indExtract_shape (url : String) (doc : Doc) (now : Nat) :
    indExtract url doc now = createEmptyResult "indeed" ∨
    ∃ o, indExtract url doc now = createSuccessResult "indeed" o (indConfidence o) ∧
      otruthy o.title = true ∧ otruthy o.description = true := by
  simp only [indExtract]
  split_ifs with h1 h2
  · exact Or.inl rfl
  · exact Or.inl rfl
  · right
    refine ⟨_, rfl, ?_, ?_⟩
    · simpa using h1
    · simpa using h2

theorem wtExtract_shape (url : String) (doc : Doc) (now : Nat) :
    wtExtract url doc now = createEmptyResult "welcometothejungle" ∨
    ∃ o, wtExtract url doc now = createSuccessResult "welcometothejungle" o
        (wtConfidence o) ∧
      otruthy o.title = true ∧ otruthy o.description = true := by
  simp only [wtExtract]
  split_ifs with h1 h2
  · exact Or.inl rfl
  · exact Or.inl rfl
  · right
    refine ⟨_, rfl, ?_, ?_⟩
    · simpa using h1
    · simpa using h2

theorem genExtract_shape (url : String) (doc : Doc) (now : Nat) :
    genExtract url doc now = createEmptyResult "generic" ∨
    ∃ o, genExtract url doc now = createSuccessResult "generic" o
        (if (extractJsonLd doc).isSome = true then (0.9 : ℚ) else calculateConfidence o) ∧
      o = genOffer url doc now ∧
      otruthy o.title = true ∧ otruthy o.description = true := by
  simp only [genExtract]
  by_cases h : (!otruthy (genOffer url doc now).title ||
      !otruthy (genOffer url doc now).description) = true
  · rw [if_pos h]
    exact Or.inl rfl
  · rw [if_neg h]
    right
    have h' : otruthy (genOffer url doc now).title = true ∧
        otruthy (genOffer url doc now).description = true := by
      simpa using h
    exact ⟨genOffer url doc now, rfl, rfl, h'.1, h'.2⟩

theorem liConfidence_bounds (o : JobOffer) :
    0 < liConfidence o ∧ liConfidence o ≤ 1 := by
  simp only [liConfidence, jsMin]
  split_ifs <;> norm_num

theorem indConfidence_bounds (o : JobOffer) :
    0 < indConfidence o ∧ indConfidence o ≤ 1 := by
  simp only [indConfidence, jsMin]
  split_ifs <;> norm_num

theorem wtConfidence_bounds (o : JobOffer) :
    0 < wtConfidence o ∧ wtConfidence o ≤ 1 := by
  simp only [wtConfidence, jsMin]
  split_ifs <;> norm_num

theorem jsMin_one_bounds (s : ℚ) (h0 : 0 ≤ s) : 0 ≤ jsMin s 1 ∧ jsMin s 1 ≤ 1 := by
  unfold jsMin
  split_ifs with h
  · exact ⟨h0, h⟩
  · exact ⟨by norm_num, le_rfl⟩

theorem jsMin_one_pos (s : ℚ) (h0 : 0 < s) : 0 < jsMin s 1 := by
  unfold jsMin
  split_ifs with h
  · exact h0
  · norm_num

theorem calculateConfidence_bounds (o : JobOffer) :
    0 ≤ calculateConfidence o ∧ calculateConfidence o ≤ 1 := by
  simp only [calculateConfidence]
  exact jsMin_one_bounds _ (by split_ifs <;> norm_num)

theorem calculateConfidence_pos (o : JobOffer) (h : otruthy o.title = true) :
    0 < calculateConfidence o := by
  simp only [calculateConfidence]
  refine jsMin_one_pos _ ?_
  rw [if_pos h]
  split_ifs <;> norm_num

/-- The generic confidence formula equals the specification's weighted sum,
clamped at one. -/
theorem calculateConfidence_eq_spec (o : JobOffer) :
    calculateConfidence o = jsMin (specWeightSum o) 1 := by
  simp only [calculateConfidence, specWeightSum]
  congr 1
  split_ifs <;> norm_num

/-! ## Registry lemmas -/

theorem runStrategies_cases (url : String) (doc : Doc) (now : Nat) (L : List Strategy) :
    runStrategies url doc now L = createEmptyResult "none" ∨
    ∃ s, s ∈ L ∧ ∃ r, s.extract url doc now = Except.ok r ∧
      runStrategies url doc now L = r ∧ r.success = true ∧ r.offer.isSome = true := by
  induction L with
  | nil => exact Or.inl rfl
  | cons s rest ih =>
    simp only [runStrategies]
    by_cases hc : s.canHandle url doc = true
    · rw [if_pos hc]
      split
      next r he =>
        by_cases hs : (r.success && r.offer.isSome) = true
        · rw [if_pos hs]
          right
          exact ⟨s, List.mem_cons_self s rest, r, he, rfl,
            (Bool.and_eq_true _ _).mp hs |>.1, (Bool.and_eq_true _ _).mp hs |>.2⟩
        · rw [if_neg hs]
          rcases ih with h | ⟨s', hmem, r', h1, h2, h3, h4⟩
          · exact Or.inl h
          · exact Or.inr ⟨s', List.mem_cons_of_mem s hmem, r', h1, h2, h3, h4⟩
      next e he =>
        rcases ih with h | ⟨s', hmem, r', h1, h2, h3, h4⟩
        · exact Or.inl h
        · exact Or.inr ⟨s', List.mem_cons_of_mem s hmem, r', h1, h2, h3, h4⟩
    · rw [if_neg hc]
      rcases ih with h | ⟨s', hmem, r', h1, h2, h3, h4⟩
      · exact Or.inl h
      · exact Or.inr ⟨s', List.mem_cons_of_mem s hmem, r', h1, h2, h3, h4⟩

theorem liExtract_name (url : String) (doc : Doc) (now : Nat) :
    (liExtract url doc now).extractorUsed = "linkedin" := by
  rcases liExtract_shape url doc now with h | ⟨o, h, _, _⟩ <;> rw [h] <;> rfl

theorem indExtract_name (url : String) (doc : Doc) (now : Nat) :
    (indExtract url doc now).extractorUsed = "indeed" := by
  rcases indExtract_shape url doc now with h | ⟨o, h, _, _⟩ <;> rw [h] <;> rfl

theorem wtExtract_name (url : String) (doc : Doc) (now : Nat) :
    (wtExtract url doc now).extractorUsed = "welcometothejungle" := by
  rcases wtExtract_shape url doc now with h | ⟨o, h, _, _⟩ <;> rw [h] <;> rfl

theorem genExtract_name (url : String) (doc : Doc) (now : Nat) :
    (genExtract url doc now).extractorUsed = "generic" := by
  rcases genExtract_shape url doc now with h | ⟨o, h, _, _, _⟩ <;> rw [h] <;> rfl

/-- Every successful result produced by one of the four registered
strategies carries a present offer with truthy title and description and a
confidence in the half-open unit interval. -/
theorem strategyResult_invariant (url : String) (doc : Doc) (now : Nat)
    (s : Strategy) (hs : s ∈ extractors) (r : ExtractionResult)
    (he : s.extract url doc now = Except.ok r) (hsucc : r.success = true) :
    ∃ o, r.offer = some o ∧ otruthy o.title = true ∧ otruthy o.description = true ∧
      0 < r.confidence ∧ r.confidence ≤ 1 := by
  have hex : extractors = [linkedInStrategy, indeedStrategy, welcomeStrategy,
      genericStrategy] := rfl
  rw [hex] at hs
  simp only [List.mem_cons, List.not_mem_nil, or_false] at hs
  rcases hs with rfl | rfl | rfl | rfl
  · have hr : r = liExtract url doc now := by
      have : Except.ok (liExtract url doc now) = Except.ok r := he
      exact (Except.ok.injEq _ _).mp this |>.symm
    subst hr
    rcases liExtract_shape url doc now with h | ⟨o, h, ht, hd⟩
    · rw [h] at hsucc; cases hsucc
    · rw [h]
      exact ⟨o, rfl, ht, hd, (liConfidence_bounds o).1, (liConfidence_bounds o).2⟩
  · have hr : r = indExtract url doc now := by
      have : Except.ok (indExtract url doc now) = Except.ok r := he
      exact (Except.ok.injEq _ _).mp this |>.symm
    subst hr
    rcases indExtract_shape url doc now with h | ⟨o, h, ht, hd⟩
    · rw [h] at hsucc; cases hsucc
    · rw [h]
      exact ⟨o, rfl, ht, hd, (indConfidence_bounds o).1, (indConfidence_bounds o).2⟩
  · have hr : r = wtExtract url doc now := by
      have : Except.ok (wtExtract url doc now) = Except.ok r := he
      exact (Except.ok.injEq _ _).mp this |>.symm
    subst hr
    rcases wtExtract_shape url doc now with h | ⟨o, h, ht, hd⟩
    · rw [h] at hsucc; cases hsucc
    · rw [h]
      exact ⟨o, rfl, ht, hd, (wtConfidence_bounds o).1, (wtConfidence_bounds o).2⟩
  · have hr : r = genExtract url doc now := by
      have : Except.ok (genExtract url doc now) = Except.ok r := he
      exact (Except.ok.injEq _ _).mp this |>.symm
    subst hr
    rcases genExtract_shape url doc now with h | ⟨o, h, ho, ht, hd⟩
    · rw [h] at hsucc; cases hsucc
    · rw [h]
      refine ⟨o, rfl, ht, hd, ?_, ?_⟩
      · by_cases hld : (extractJsonLd doc).isSome = true
        · simp only [createSuccessResult, hld, if_true]
          norm_num
        · simp only [createSuccessResult, hld, if_false]
          exact calculateConfidence_pos o ht
      · by_cases hld : (extractJsonLd doc).isSome = true
        · simp only [createSuccessResult, hld, if_true]
          norm_num
        · simp only [createSuccessResult, hld, if_false]
          exact (calculateConfidence_bounds o).2

/-! ## C2: outcome invariants -/

/-- C2: for every URL, tree and clock instant, extractJobOffer returns a
confidence in the unit interval; success holds exactly when the record is
present with truthy (non-empty) title and description; success implies a
present record and positive confidence; failure implies an absent record. -/
theorem c2_outcome_invariants (url : String) (doc : Doc) (now : Nat) :
    (0 ≤ (extractJobOffer url doc now).confidence ∧
      (extractJobOffer url doc now).confidence ≤ 1) ∧
    ((extractJobOffer url doc now).success = true ↔
      ∃ o, (extractJobOffer url doc now).offer = some o ∧
        otruthy o.title = true ∧ otruthy o.description = true) ∧
    ((extractJobOffer url doc now).success = true →
      (extractJobOffer url doc now).offer.isSome = true ∧
      0 < (extractJobOffer url doc now).confidence) ∧
    ((extractJobOffer url doc now).success = false →
      (extractJobOffer url doc now).offer = none) := by
  rcases runStrategies_cases url doc now extractors with h | ⟨s, hmem, r, he, hr, hsucc, hoff⟩
  · have hE : extractJobOffer url doc now = createEmptyResult "none" := h
    rw [hE]
    refine ⟨⟨le_refl 0, by norm_num [createEmptyResult]⟩, ?_, ?_, ?_⟩
    · simp [createEmptyResult]
    · intro hfalse
      simp [createEmptyResult] at hfalse
    · intro _
      rfl
  · have hE : extractJobOffer url doc now = r := hr
    obtain ⟨o, ho, ht, hd, hc1, hc2⟩ :=
      strategyResult_invariant url doc now s hmem r he hsucc
    rw [hE]
    refine ⟨⟨le_of_lt hc1, hc2⟩, ?_, fun _ => ⟨by simp [ho], hc1⟩, ?_⟩
    · exact ⟨fun _ => ⟨o, ho, ht, hd⟩, fun _ => hsucc⟩
    · intro hfalse
      rw [hsucc] at hfalse
      cases hfalse

/-- C2 witness: the theorem applied to a page the generic strategy
extracts (success implications discharged) and to a page where every
strategy fails (the failure implication discharged). -/
theorem c2_outcome_invariants_witness :
    ((extractJobOffer "https://example.com/x" sampleMetaDoc 0).offer.isSome = true ∧
      0 < (extractJobOffer "https://example.com/x" sampleMetaDoc 0).confidence) ∧
    (extractJobOffer "https://example.com/x" sampleBareLdDoc 0).offer = none :=
  ⟨(c2_outcome_invariants "https://example.com/x" sampleMetaDoc 0).2.2.1 (by decide),
   (c2_outcome_invariants "https://example.com/x" sampleBareLdDoc 0).2.2.2 (by decide)⟩

/-! ## Registry step lemmas -/

theorem runStrategies_skip_error (url : String) (doc : Doc) (now : Nat)
    (s : Strategy) (rest : List Strategy) (err : String)
    (hc : s.canHandle url doc = true) (he : s.extract url doc now = Except.error err) :
    runStrategies url doc now (s :: rest) = runStrategies url doc now rest := by
  simp only [runStrategies]
  rw [if_pos hc, he]

theorem runStrategies_skip_notsuccess (url : String) (doc : Doc) (now : Nat)
    (s : Strategy) (rest : List Strategy) (r : ExtractionResult)
    (hc : s.canHandle url doc = true) (he : s.extract url doc now = Except.ok r)
    (hns : (r.success && r.offer.isSome) = false) :
    runStrategies url doc now (s :: rest) = runStrategies url doc now rest := by
  simp only [runStrategies]
  rw [if_pos hc, he]
  show (if (r.success && r.offer.isSome) = true then r
    else runStrategies url doc now rest) = runStrategies url doc now rest
  rw [if_neg (by simp [hns])]

theorem runStrategies_skip_nohandle (url : String) (doc : Doc) (now : Nat)
    (s : Strategy) (rest : List Strategy) (hc : s.canHandle url doc = false) :
    runStrategies url doc now (s :: rest) = runStrategies url doc now rest := by
  simp only [runStrategies]
  rw [if_neg (by simp [hc])]

theorem runStrategies_return_success (url : String) (doc : Doc) (now : Nat)
    (s : Strategy) (rest : List Strategy) (r : ExtractionResult)
    (hc : s.canHandle url doc = true) (he : s.extract url doc now = Except.ok r)
    (h1 : r.success = true) (h2 : r.offer.isSome = true) :
    runStrategies url doc now (s :: rest) = r := by
  simp only [runStrategies]
  rw [if_pos hc, he]
  show (if (r.success && r.offer.isSome) = true then r
    else runStrategies url doc now rest) = r
  rw [if_pos (by rw [h1, h2]; rfl)]

theorem runStrategies_exhausted (url : String) (doc : Doc) (now : Nat)
    (L : List Strategy)
    (h : ∀ s ∈ L, s.canHandle url doc = true → ∀ r, s.extract url doc now = Except.ok r →
      ¬(r.success = true ∧ r.offer.isSome = true)) :
    runStrategies url doc now L = createEmptyResult "none" := by
  induction L with
  | nil => rfl
  | cons s rest ih =>
    have hrest : ∀ s' ∈ rest, s'.canHandle url doc = true →
        ∀ r, s'.extract url doc now = Except.ok r →
        ¬(r.success = true ∧ r.offer.isSome = true) :=
      fun s' hm => h s' (List.mem_cons_of_mem s hm)
    by_cases hc : s.canHandle url doc = true
    · cases he : s.extract url doc now with
      | ok r =>
        have hns : (r.success && r.offer.isSome) = false := by
          have hno := h s (List.mem_cons_self s rest) hc r he
          cases hx : r.success with
          | false => rfl
          | true =>
            cases hy : r.offer.isSome with
            | false => rfl
            | true => exact absurd ⟨hx, hy⟩ hno
        rw [runStrategies_skip_notsuccess url doc now s rest r hc he hns]
        exact ih hrest
      | error e =>
        rw [runStrategies_skip_error url doc now s rest e hc he]
        exact ih hrest
    · rw [runStrategies_skip_nohandle url doc now s rest (by simpa using hc)]
      exact ih hrest

/-- When LinkedIn's canHandle holds, the URL's domain is one of the two
LinkedIn domains, so neither the Indeed nor the WTTJ substring test can
hold. -/
theorem linkedIn_excludes_others (url : String) (h : linkedInCanHandle url = true) :
    indeedCanHandle url = false ∧ wtCanHandle url = false := by
  have hdom : getDomain url = "linkedin.com" ∨ getDomain url = "www.linkedin.com" := by
    simp only [linkedInCanHandle, Bool.and_eq_true] at h
    have h1 := h.1
    rw [show linkedInDomains = ["linkedin.com", "www.linkedin.com"] from rfl] at h1
    simpa using h1
  rcases hdom with h1 | h1 <;>
    refine ⟨?_, ?_⟩ <;>
    simp only [indeedCanHandle, wtCanHandle] <;>
    rw [h1] <;> decide

/-! ## C1: registry fallback policy -/

/-- C1: the registry's strategy list is the registration list sorted by
descending priority; a fault inside one canHandle-ing strategy's extract is
caught and iteration continues with the remaining strategies; the first ok
result with success and a present offer is returned as-is (each concrete
strategy stamps its own name on its results, so the returned strategyName is
that strategy's); exhaustion yields the canonical failure with name none,
zero confidence and a non-empty error list; and when LinkedIn's canHandle
holds but its extract fails while the generic strategy succeeds, the
returned outcome is the generic strategy's success, never the failure named
none. -/
theorem c1_registry_first_success_policy :
    (extractors = registeredExtractors ∧
      List.Pairwise (fun a b => b ≤ a) (extractors.map Strategy.priority)) ∧
    (∀ url doc now (s : Strategy) (rest : List Strategy) (err : String),
      s.canHandle url doc = true → s.extract url doc now = Except.error err →
      runStrategies url doc now (s :: rest) = runStrategies url doc now rest) ∧
    (∀ url doc now (s : Strategy) (rest : List Strategy) (r : ExtractionResult),
      s.canHandle url doc = true → s.extract url doc now = Except.ok r →
      r.success = true → r.offer.isSome = true →
      runStrategies url doc now (s :: rest) = r) ∧
    (∀ url doc now (L : List Strategy),
      (∀ s ∈ L, s.canHandle url doc = true → ∀ r, s.extract url doc now = Except.ok r →
        ¬(r.success = true ∧ r.offer.isSome = true)) →
      runStrategies url doc now L = createEmptyResult "none") ∧
    ((createEmptyResult "none").success = false ∧
      (createEmptyResult "none").extractorUsed = "none" ∧
      (createEmptyResult "none").confidence = 0 ∧
      (createEmptyResult "none").errors ≠ []) ∧
    (∀ url doc now, (liExtract url doc now).extractorUsed = "linkedin" ∧
      (indExtract url doc now).extractorUsed = "indeed" ∧
      (wtExtract url doc now).extractorUsed = "welcometothejungle" ∧
      (genExtract url doc now).extractorUsed = "generic") ∧
    (∀ url doc now, linkedInCanHandle url = true →
      (liExtract url doc now).success = false →
      (genExtract url doc now).success = true →
      extractJobOffer url doc now = genExtract url doc now ∧
      (extractJobOffer url doc now).extractorUsed = "generic" ∧
      (extractJobOffer url doc now).success = true) := by
  refine ⟨⟨rfl, by decide⟩,
    fun url doc now s rest err hc he =>
      runStrategies_skip_error url doc now s rest err hc he,
    fun url doc now s rest r hc he h1 h2 =>
      runStrategies_return_success url doc now s rest r hc he h1 h2,
    fun url doc now L h => runStrategies_exhausted url doc now L h,
    ⟨rfl, rfl, rfl, by decide⟩,
    fun url doc now => ⟨liExtract_name url doc now, indExtract_name url doc now,
      wtExtract_name url doc now, genExtract_name url doc now⟩,
    ?_⟩
  intro url doc now hcan hfail hgen
  obtain ⟨hind, hwt⟩ := linkedIn_excludes_others url hcan
  have hoff : (genExtract url doc now).offer.isSome = true := by
    rcases genExtract_shape url doc now with h | ⟨o, h, _, _, _⟩
    · rw [h] at hgen; exact absurd hgen (by decide)
    · rw [h]; rfl
  have hchain : extractJobOffer url doc now = genExtract url doc now := by
    show runStrategies url doc now
      [linkedInStrategy, indeedStrategy, welcomeStrategy, genericStrategy] = _
    rw [runStrategies_skip_notsuccess url doc now linkedInStrategy _
        (liExtract url doc now)
        (show linkedInStrategy.canHandle url doc = true from hcan) rfl
        (by rw [hfail]; rfl),
      runStrategies_skip_nohandle url doc now indeedStrategy _
        (show indeedStrategy.canHandle url doc = false from hind),
      runStrategies_skip_nohandle url doc now welcomeStrategy _
        (show welcomeStrategy.canHandle url doc = false from hwt),
      runStrategies_return_success url doc now genericStrategy _
        (genExtract url doc now) rfl rfl hgen hoff]
  exact ⟨hchain, by rw [hchain]; exact genExtract_name url doc now,
    by rw [hchain]; exact hgen⟩

/-- Witness for C1: on a LinkedIn job URL whose page only carries OpenGraph
meta tags, the LinkedIn strategy fails, and the registry falls through to the
generic strategy's successful result. -/
theorem c1_registry_first_success_policy_witness :
    linkedInCanHandle "https://www.linkedin.com/jobs/view/123" = true ∧
    (liExtract "https://www.linkedin.com/jobs/view/123" sampleMetaDoc 0).success = false ∧
    (genExtract "https://www.linkedin.com/jobs/view/123" sampleMetaDoc 0).success = true ∧
    (extractJobOffer "https://www.linkedin.com/jobs/view/123" sampleMetaDoc 0).extractorUsed
      = "generic" :=
  ⟨by decide, by decide, by decide,
    (c1_registry_first_success_policy.2.2.2.2.2.2
      "https://www.linkedin.com/jobs/view/123" sampleMetaDoc 0
      (by decide) (by decide) (by decide)).2.1⟩

/-! ## C4: generic confidence -/

/-- C4 counterexample: a page whose only content is a bare JSON-LD JobPosting
block.  Structured data is found, yet the returned confidence is 0, not the
claimed fixed 0.9: the missing title/description make the generic extract
return the empty result before the confidence assignment is reached. -/
theorem c4_confidence_counterexample :
    (extractJsonLd sampleBareLdDoc).isSome = true ∧
    genExtract "https://example.com/job" sampleBareLdDoc 0 = createEmptyResult "generic" ∧
    (genExtract "https://example.com/job" sampleBareLdDoc 0).confidence = 0 ∧
    ¬(genExtract "https://example.com/job" sampleBareLdDoc 0).confidence = 0.9 :=
  ⟨by decide, by decide, by decide, by
    rw [show (genExtract "https://example.com/job" sampleBareLdDoc 0).confidence = 0
      from by decide]
    norm_num⟩

/-- C4 amended: on a successful generic extraction, the confidence is the
fixed 0.9 when a JSON-LD JobPosting was found, and otherwise the spec's
weighted field sum clamped to 1; on a failed generic extraction the
confidence is 0 even when structured data was found. -/
theorem c4_confidence_amended :
    (∀ url doc now, (genExtract url doc now).success = true →
      ((extractJsonLd doc).isSome = true →
        (genExtract url doc now).confidence = 0.9) ∧
      ((extractJsonLd doc).isSome = false →
        (genExtract url doc now).confidence
          = jsMin (specWeightSum (genOffer url doc now)) 1)) ∧
    (∀ url doc now, (genExtract url doc now).success = false →
      (genExtract url doc now).confidence = 0) := by
  constructor
  · intro url doc now hs
    rcases genExtract_shape url doc now with h | ⟨o, h, ho, _, _⟩
    · rw [h] at hs; exact absurd hs (by decide)
    · constructor
      · intro hj
        rw [h]
        show (if (extractJsonLd doc).isSome = true then (0.9 : ℚ)
          else calculateConfidence o) = 0.9
        rw [if_pos hj]
      · intro hj
        rw [h]
        show (if (extractJsonLd doc).isSome = true then (0.9 : ℚ)
          else calculateConfidence o) = _
        rw [if_neg (by simp [hj]), ho]
        exact calculateConfidence_eq_spec _
  · intro url doc now hs
    rcases genExtract_shape url doc now with h | ⟨o, h, _, _, _⟩
    · rw [h]; rfl
    · rw [h] at hs; simp [createSuccessResult] at hs

/-- Witness for C4 amended: a titled JSON-LD page gets confidence 0.9, the
meta-tag-only page gets the clamped weighted sum, and the bare JSON-LD page
fails with confidence 0. -/
theorem c4_confidence_amended_witness :
    ((genExtract "https://example.com/a" sampleTitledLdDoc 0).success = true ∧
      (extractJsonLd sampleTitledLdDoc).isSome = true ∧
      (genExtract "https://example.com/a" sampleTitledLdDoc 0).confidence = 0.9) ∧
    ((genExtract "https://example.com/a" sampleMetaDoc 0).success = true ∧
      (extractJsonLd sampleMetaDoc).isSome = false ∧
      (genExtract "https://example.com/a" sampleMetaDoc 0).confidence
        = jsMin (specWeightSum (genOffer "https://example.com/a" sampleMetaDoc 0)) 1) ∧
    ((genExtract "https://example.com/a" sampleBareLdDoc 0).success = false ∧
      (genExtract "https://example.com/a" sampleBareLdDoc 0).confidence = 0) :=
  ⟨⟨by decide, by decide,
      (c4_confidence_amended.1 "https://example.com/a" sampleTitledLdDoc 0
        (by decide)).1 (by decide)⟩,
   ⟨by decide, by decide,
      (c4_confidence_amended.1 "https://example.com/a" sampleMetaDoc 0
        (by decide)).2 (by decide)⟩,
   ⟨by decide,
      c4_confidence_amended.2 "https://example.com/a" sampleBareLdDoc 0 (by decide)⟩⟩

/-! ## C9: determinism and the capture clock -/

theorem applyJTitle_ca (o : JobOffer) (v : String) (d : Json) :
    applyJTitle { o with capturedAt := v } d = { applyJTitle o d with capturedAt := v } := by
  simp only [applyJTitle]
  cases jsonStrProp d "title" <;> rfl

theorem applyJDescription_ca (o : JobOffer) (v : String) (d : Json) :
    applyJDescription { o with capturedAt := v } d
      = { applyJDescription o d with capturedAt := v } := by
  simp only [applyJDescription]
  cases jsonStrProp d "description" <;> rfl

theorem applyJCompany_ca (o : JobOffer) (v : String) (d : Json) :
    applyJCompany { o with capturedAt := v } d
      = { applyJCompany o d with capturedAt := v } := by
  rcases h1 : jlookup d "hiringOrganization" with _ | org
  · simp only [applyJCompany, h1]
  · rcases h2 : jsonStrProp org "name" with _ | s <;>
      simp only [applyJCompany, h1, h2]

theorem applyJLocation_ca (o : JobOffer) (v : String) (d : Json) :
    applyJLocation { o with capturedAt := v } d
      = { applyJLocation o d with capturedAt := v } := by
  rcases h1 : jlookup d "jobLocation" with _ | loc
  · simp only [applyJLocation, h1]
  · rcases h2 : jlookup loc "address" with _ | addr
    · simp only [applyJLocation, h1, h2]
    · simp only [applyJLocation, h1, h2]
      split_ifs <;> rfl

theorem applyJContract_ca (o : JobOffer) (v : String) (d : Json) :
    applyJContract { o with capturedAt := v } d
      = { applyJContract o d with capturedAt := v } := by
  simp only [applyJContract]
  cases jsonStrProp d "employmentType" <;> rfl

theorem applyJSalary_ca (o : JobOffer) (v : String) (d : Json) :
    applyJSalary { o with capturedAt := v } d
      = { applyJSalary o d with capturedAt := v } := by
  rcases h1 : jlookup d "baseSalary" with _ | bs
  · simp only [applyJSalary, h1]
  · rcases h2 : jlookup bs "value" with _ | w
    · simp only [applyJSalary, h1, h2]
    · simp only [applyJSalary, h1, h2]
      split_ifs <;> rfl

theorem applyJDate_ca (o : JobOffer) (v : String) (d : Json) :
    applyJDate { o with capturedAt := v } d = { applyJDate o d with capturedAt := v } := by
  simp only [applyJDate]
  cases jsonStrProp d "datePosted" <;> rfl

theorem applyJSkills_ca (o : JobOffer) (v : String) (d : Json) :
    applyJSkills { o with capturedAt := v } d
      = { applyJSkills o d with capturedAt := v } := by
  rcases h1 : jlookup d "skills" with _ | sk
  · simp only [applyJSkills, h1]
  · simp only [applyJSkills, h1]
    split_ifs <;> rfl

theorem applyJsonLdData_ca (o : JobOffer) (v : String) (d : Json) :
    applyJsonLdData { o with capturedAt := v } d
      = { applyJsonLdData o d with capturedAt := v } := by
  simp only [applyJsonLdData, applyJTitle_ca, applyJDescription_ca, applyJCompany_ca,
    applyJLocation_ca, applyJContract_ca, applyJSalary_ca, applyJDate_ca, applyJSkills_ca]

theorem genStep1_ca (jl : Option Json) (o : JobOffer) (v : String) :
    genStep1 jl { o with capturedAt := v } = { genStep1 jl o with capturedAt := v } := by
  cases jl with
  | none => rfl
  | some d => exact applyJsonLdData_ca o v d

theorem extractMetaTags_ca (o : JobOffer) (v : String) (doc : Doc) :
    extractMetaTags { o with capturedAt := v } doc
      = { extractMetaTags o doc with capturedAt := v } := by
  simp only [extractMetaTags]
  split_ifs <;> rfl

theorem genStep3_ca (doc : Doc) (o : JobOffer) (v : String) :
    genStep3 doc { o with capturedAt := v } = { genStep3 doc o with capturedAt := v } := by
  simp only [genStep3]
  split_ifs <;> rfl

theorem genStep4_ca (o : JobOffer) (v : String) :
    genStep4 { o with capturedAt := v } = { genStep4 o with capturedAt := v } := by
  simp only [genStep4]
  split_ifs <;> rfl

theorem genStep5_ca (o : JobOffer) (v : String) :
    genStep5 { o with capturedAt := v } = { genStep5 o with capturedAt := v } := by
  simp only [genStep5]
  split_ifs <;> rfl

/-- The only clock dependence of the generic offer is the capturedAt stamp on
the base record, and no later pipeline stage reads or writes capturedAt. -/
theorem genOffer_clock (url : String) (doc : Doc) (t : Nat) :
    genOffer url doc t
      = { genOffer url doc 0 with capturedAt := isoDateTime (Int.ofNat t) } := by
  have hbase : ({ sourceUrl := url, sourceDomain := getDomain url,
                  capturedAt := isoDateTime (Int.ofNat t) } : JobOffer)
      = { ({ sourceUrl := url, sourceDomain := getDomain url,
             capturedAt := isoDateTime (Int.ofNat 0) } : JobOffer) with
          capturedAt := isoDateTime (Int.ofNat t) } := rfl
  show genStep5 (genStep4 (genStep3 doc (extractMetaTags (genStep1 (extractJsonLd doc)
      { sourceUrl := url, sourceDomain := getDomain url,
        capturedAt := isoDateTime (Int.ofNat t) }) doc))) = _
  rw [hbase, genStep1_ca, extractMetaTags_ca, genStep3_ca, genStep4_ca, genStep5_ca]
  rfl

theorem genExtract_clock (url : String) (doc : Doc) (t t' : Nat) :
    eraseClockR (genExtract url doc t) = eraseClockR (genExtract url doc t') := by
  simp only [genExtract]
  rw [genOffer_clock url doc t, genOffer_clock url doc t']
  dsimp only
  split_ifs <;> rfl

theorem liExtract_clock (url : String) (doc : Doc) (t t' : Nat) :
    eraseClockR (liExtract url doc t) = eraseClockR (liExtract url doc t') := by
  simp only [liExtract]
  split_ifs <;> rfl

theorem indExtract_clock (url : String) (doc : Doc) (t t' : Nat) :
    eraseClockR (indExtract url doc t) = eraseClockR (indExtract url doc t') := by
  simp only [indExtract]
  split_ifs <;> rfl

theorem wtExtract_clock (url : String) (doc : Doc) (t t' : Nat) :
    eraseClockR (wtExtract url doc t) = eraseClockR (wtExtract url doc t') := by
  simp only [wtExtract]
  split_ifs <;> rfl

/-- The fallback loop is clock-invariant modulo the date stamps whenever each
strategy's two runs agree modulo the date stamps. -/
theorem runStrategies_clock (url : String) (doc : Doc) (t t' : Nat) (L : List Strategy)
    (h : ∀ s ∈ L,
      (∃ r r', s.extract url doc t = Except.ok r ∧ s.extract url doc t' = Except.ok r' ∧
        eraseClockR r = eraseClockR r') ∨
      (∃ e e', s.extract url doc t = Except.error e ∧
        s.extract url doc t' = Except.error e')) :
    eraseClockR (runStrategies url doc t L) = eraseClockR (runStrategies url doc t' L) := by
  induction L with
  | nil => rfl
  | cons s rest ih =>
    have hrest := fun s' hm => h s' (List.mem_cons_of_mem s hm)
    by_cases hc : s.canHandle url doc = true
    · rcases h s (List.mem_cons_self s rest) with ⟨r, r', he1, he2, hee⟩ | ⟨e, e', he1, he2⟩
      · have hs : r.success = r'.success := by
          have h1 := congrArg ExtractionResult.success hee
          exact h1
        have ho : r.offer.isSome = r'.offer.isSome := by
          have h2 := congrArg (fun x => x.offer.isSome) hee
          simpa [eraseClockR] using h2
        by_cases hok : (r.success && r.offer.isSome) = true
        · have hok1 := ((Bool.and_eq_true _ _).mp hok).1
          have hok2 := ((Bool.and_eq_true _ _).mp hok).2
          rw [runStrategies_return_success url doc t s rest r hc he1 hok1 hok2,
            runStrategies_return_success url doc t' s rest r' hc he2
              (by rw [← hs]; exact hok1) (by rw [← ho]; exact hok2)]
          exact hee
        · have hnok : (r.success && r.offer.isSome) = false := by
            cases hx : (r.success && r.offer.isSome) with
            | false => rfl
            | true => exact absurd hx hok
          have hnok' : (r'.success && r'.offer.isSome) = false := by
            rw [← hs, ← ho]; exact hnok
          rw [runStrategies_skip_notsuccess url doc t s rest r hc he1 hnok,
            runStrategies_skip_notsuccess url doc t' s rest r' hc he2 hnok']
          exact ih hrest
      · rw [runStrategies_skip_error url doc t s rest e hc he1,
          runStrategies_skip_error url doc t' s rest e' hc he2]
        exact ih hrest
    · have hcf : s.canHandle url doc = false := by
        cases hx : s.canHandle url doc with
        | false => rfl
        | true => exact absurd hx hc
      rw [runStrategies_skip_nohandle url doc t s rest hcf,
        runStrategies_skip_nohandle url doc t' s rest hcf]
      exact ih hrest

/-- C9 counterexample: the same url and document at two different clock
readings yield different ExtractionResult values, because capturedAt is the
extraction-time clock, not a function of (url, document). -/
theorem c9_determinism_counterexample :
    ¬ extractJobOffer "https://example.com/x" sampleMetaDoc 0
      = extractJobOffer "https://example.com/x" sampleMetaDoc 1 := by decide

/-- C9 amended: extractJobOffer is deterministic in (url, document) modulo
the clock-derived fields: erasing capturedAt and publishedAt from the offer
makes the result independent of the clock reading, every other field being a
function of the url and document alone. -/
theorem c9_determinism_amended (url : String) (doc : Doc) (t t' : Nat) :
    eraseClockR (extractJobOffer url doc t) = eraseClockR (extractJobOffer url doc t') := by
  refine runStrategies_clock url doc t t' extractors ?_
  intro s hs
  rw [show extractors
      = [linkedInStrategy, indeedStrategy, welcomeStrategy, genericStrategy] from rfl] at hs
  have hmem : s = linkedInStrategy ∨ s = indeedStrategy ∨ s = welcomeStrategy ∨
      s = genericStrategy := by simpa using hs
  rcases hmem with rfl | rfl | rfl | rfl
  · exact Or.inl ⟨_, _, rfl, rfl, liExtract_clock url doc t t'⟩
  · exact Or.inl ⟨_, _, rfl, rfl, indExtract_clock url doc t t'⟩
  · exact Or.inl ⟨_, _, rfl, rfl, wtExtract_clock url doc t t'⟩
  · exact Or.inl ⟨_, _, rfl, rfl, genExtract_clock url doc t t'⟩
